import Mathlib

/-!
Verification of the simulation core of the box-jump platformer (`script.js`).

The development shallowly embeds the relevant parts of the source:
the player's kinematic body (`Player.takeDamage`, `Player.update` and its
sub-steps, in source order), the laser beam clipping (`getLaserBounds`),
the trigger/dormancy system with its deferred activations (modelling the
host `setTimeout` queue explicitly), and the scripted-motion scheduler
(`applyMovement`).  Machine numbers are modelled as `ℚ` where the code
performs only field arithmetic, and as `ℝ` for the motion scheduler,
whose source uses `Math.hypot`/`Math.sin`/`Math.cos`.
-/

/-- JS `v || d` on an optional numeric field: `undefined` and `0` are falsy. -/
def jsOr (v : Option ℚ) (d : ℚ) : ℚ :=
  match v with
  | none => d
  | some x => if x = 0 then d else x

/-- The polled keyboard snapshot (`keys` global): only the codes the
body update reads. -/
structure Keys where
  keyA : Bool
  keyD : Bool
  keyW : Bool
  space : Bool
  keyS : Bool
  shiftLeft : Bool
  shiftRight : Bool
  deriving DecidableEq

/-- The global `defaultSettings` record (source lines 15-30); it is mutable
through the editor UI, so the embedding passes it as a parameter.  Only the
fields `Player.update` reads are included. -/
structure GlobalSettings where
  gravity : ℚ
  friction : ℚ
  jumpForce : ℚ
  speed : ℚ
  maxFallSpeed : ℚ
  fastFallSpeed : ℚ
  deriving DecidableEq

/-- A per-level settings record (`currentLevelData.settings`).  The six
physics fields are present but, as the proofs show, never read by
`Player.update`; `mpRegen` is guarded by an `!== undefined` check and
`fallDamage` by `|| 20`, hence the `Option`s. -/
structure LevelSettings where
  gravity : ℚ
  friction : ℚ
  speed : ℚ
  jumpForce : ℚ
  maxFallSpeed : ℚ
  fastFallSpeed : ℚ
  worldWidth : ℚ
  worldHeight : ℚ
  playerMaxHp : ℚ
  playerMaxMp : ℚ
  platformCost : ℚ
  fallDamage : Option ℚ
  mpRegen : Option ℚ
  deriving DecidableEq

/-- An axis-aligned platform rectangle. -/
structure Rect where
  x : ℚ
  y : ℚ
  width : ℚ
  height : ℚ
  deriving DecidableEq

/-- A jump pad; `jumpForce` may be absent (`!== undefined` check in source). -/
structure JumpPad where
  x : ℚ
  y : ℚ
  width : ℚ
  height : ℚ
  jumpForce : Option ℚ
  deriving DecidableEq

/-- The level's respawn point. -/
structure Spawn where
  x : ℚ
  y : ℚ
  deriving DecidableEq

/-- The kinematic body (`class Player`): every field the simulation core
reads or writes.  The rendering-only trail and color are omitted.
`invulnerableTimer` is a frame counter (the source decrements it with
`--`), hence `ℤ`. -/
structure Player where
  x : ℚ
  y : ℚ
  width : ℚ
  height : ℚ
  vx : ℚ
  vy : ℚ
  grounded : Bool
  jumpLocked : Bool
  hp : ℚ
  maxHp : ℚ
  mp : ℚ
  maxMp : ℚ
  defense : ℚ
  invulnerable : Bool
  invulnerableTimer : ℤ
  extraJumps : ℚ
  jumpsRemaining : ℚ
  extraDashes : ℚ
  dashesRemaining : ℚ
  dashCooldown : ℚ
  isDashing : Bool
  dashTimer : ℚ
  lastDirection : ℚ
  dashSpeedMult : Option ℚ
  doubleJumpMult : Option ℚ
  wallClimbLevel : ℚ
  lastTouchingWall : ℤ
  wallJumpTimer : ℚ
  isWallSliding : Bool
  isWallClimbing : Bool
  deriving DecidableEq

/-- `Player.takeDamage(amount)` (source lines 223-255).  The camera shake,
particle, logging and deferred game-over side effects are external events
and do not touch the body's state. -/
def Player.takeDamage (p : Player) (amount : ℚ) : Player :=
  if p.invulnerable then p
  else
    let dmg0 := amount - p.defense
    let dmg := if dmg0 < 0 then 0 else dmg0
    let hp1 := p.hp - dmg
    let hp2 := if hp1 < 0 then 0 else hp1
    { p with hp := hp2, invulnerable := true, invulnerableTimer := 30 }

/-- `Player.consumeMp(amount)` (source lines 257-263); the boolean result is
ignored at the one call site inside `update`. -/
def Player.consumeMp (p : Player) (amount : ℚ) : Player :=
  if p.mp ≥ amount then { p with mp := p.mp - amount } else p

/-- The source's flooring idiom `if x < 0 then 0 else x` is `max x 0`. -/
theorem floor_zero_eq_max (x : ℚ) : (if x < 0 then (0:ℚ) else x) = max x 0 := by
  rcases lt_or_le x 0 with hd | hd
  · rw [if_pos hd, max_eq_right hd.le]
  · rw [if_neg (not_lt.mpr hd), max_eq_left hd]

/-- While the body is invulnerable, `takeDamage` returns with no mutation. -/
theorem takeDamage_noop (p : Player) (amount : ℚ) (h : p.invulnerable = true) :
    p.takeDamage amount = p := by
  simp [Player.takeDamage, h]

/-- While vulnerable, `takeDamage` reduces hp by the defense-adjusted
amount, floored at 0, and opens the 30-frame invulnerability window. -/
theorem takeDamage_hit (p : Player) (amount : ℚ) (h : p.invulnerable = false) :
    (p.takeDamage amount).hp = max (p.hp - max (amount - p.defense) 0) 0 ∧
    (p.takeDamage amount).invulnerable = true ∧
    (p.takeDamage amount).invulnerableTimer = 30 := by
  refine ⟨?_, ?_, ?_⟩
  · simp only [Player.takeDamage, h, Bool.false_eq_true, if_false]
    rw [floor_zero_eq_max, floor_zero_eq_max]
  · simp [Player.takeDamage, h]
  · simp [Player.takeDamage, h]

/-- C1: `takeDamage` is a no-op (the whole state is unchanged) while
invulnerable, so a second call made inside the invulnerability window of a
first call causes no second hp reduction; otherwise it subtracts
`max (amount - defense) 0` from hp, floors hp at 0, and starts the fixed
invulnerability window (`invulnerable = true`, timer = 30 frames, i.e. 0.5 s
at 60 fps). -/
theorem C1_takeDamage (p : Player) (amount b : ℚ) :
    (p.invulnerable = true → p.takeDamage amount = p) ∧
    (p.invulnerable = false →
      (p.takeDamage amount).hp = max (p.hp - max (amount - p.defense) 0) 0 ∧
      (p.takeDamage amount).invulnerable = true ∧
      (p.takeDamage amount).invulnerableTimer = 30 ∧
      (p.takeDamage amount).takeDamage b = p.takeDamage amount) := by
  refine ⟨fun h => takeDamage_noop p amount h, fun h => ?_⟩
  obtain ⟨e1, e2, e3⟩ := takeDamage_hit p amount h
  exact ⟨e1, e2, e3, takeDamage_noop _ b e2⟩

/-- A concrete body state used to instantiate the theorems. -/
def samplePlayer : Player :=
  { x := 100, y := 100, width := 30, height := 30, vx := 0, vy := 0,
    grounded := true, jumpLocked := false,
    hp := 100, maxHp := 100, mp := 100, maxMp := 100, defense := 5,
    invulnerable := false, invulnerableTimer := 0,
    extraJumps := 1, jumpsRemaining := 1, extraDashes := 1, dashesRemaining := 1,
    dashCooldown := 0, isDashing := false, dashTimer := 0, lastDirection := 1,
    dashSpeedMult := none, doubleJumpMult := none,
    wallClimbLevel := 0, lastTouchingWall := 0, wallJumpTimer := 0,
    isWallSliding := false, isWallClimbing := false }

theorem C1_takeDamage_witness :
    samplePlayer.invulnerable = false ∧
    ((samplePlayer.takeDamage 25).hp
        = max (samplePlayer.hp - max (25 - samplePlayer.defense) 0) 0 ∧
      (samplePlayer.takeDamage 25).invulnerable = true ∧
      (samplePlayer.takeDamage 25).invulnerableTimer = 30 ∧
      (samplePlayer.takeDamage 25).takeDamage 7 = samplePlayer.takeDamage 25) :=
  ⟨rfl, (C1_takeDamage samplePlayer 25 7).2 rfl⟩

/-! ## The per-tick body update (`Player.update`, source lines 307-569)

The update is decomposed into named sub-steps, one per contiguous block of
the source, composed in source order.  The rendering-only trail recording
(lines 308-311) is omitted. -/

/-- Invulnerability countdown (lines 313-316): the timer loses exactly one
frame per tick, with no `dt` scaling. -/
def invulnStep (p : Player) : Player :=
  if p.invulnerable then
    let t := p.invulnerableTimer - 1
    { p with invulnerableTimer := t,
             invulnerable := if t ≤ 0 then false else p.invulnerable }
  else p

/-- Skill cooldowns and dash expiry (lines 318-323), dt-scaled. -/
def timersStep (dt : ℚ) (p : Player) : Player :=
  let p := if p.dashCooldown > 0 then { p with dashCooldown := p.dashCooldown - dt } else p
  if p.isDashing then
    let t := p.dashTimer - dt
    { p with dashTimer := t, isDashing := if t ≤ 0 then false else p.isDashing }
  else p

/-- MP regeneration (lines 330-335), dt-scaled and clamped at `maxMp`. -/
def mpRegenStep (ls : LevelSettings) (dt : ℚ) (p : Player) : Player :=
  let regenRate := ls.mpRegen.getD (1/10)
  if p.mp < p.maxMp then
    let m := p.mp + regenRate * dt
    { p with mp := if m > p.maxMp then p.maxMp else m }
  else p

/-- Horizontal input handling and the dashing constant-velocity branch
(lines 337-361). -/
def horizontalStep (ds : GlobalSettings) (ks : Keys) (speed dt : ℚ) (p : Player) : Player :=
  if ¬ p.isDashing then
    if p.wallJumpTimer > 0 then { p with wallJumpTimer := p.wallJumpTimer - dt }
    else if ks.keyA then { p with vx := -speed, lastDirection := -1 }
    else if ks.keyD then { p with vx := speed, lastDirection := 1 }
    else
      let v := p.vx * ds.friction
      { p with vx := if |v| < 1/10 then 0 else v }
  else
    { p with vx := speed * p.lastDirection, vy := 0 }

/-- Dash activation (lines 363-370). -/
def dashStep (ks : Keys) (p : Player) : Player :=
  if p.extraDashes > 0 ∧ (ks.shiftLeft ∨ ks.shiftRight)
      ∧ p.dashCooldown ≤ 0 ∧ ¬ p.isDashing ∧ p.dashesRemaining > 0 then
    { p with dashesRemaining := p.dashesRemaining - 1, isDashing := true,
             dashTimer := 1/5, dashCooldown := 3/5 }
  else p

/-- The wall slide/climb/wall-jump block (lines 380-429); returns the
updated body and the `didWallJump` flag. -/
def wallStep (ks : Keys) (speed jumpForce dt : ℚ) (jumpInput justJumped : Bool)
    (p : Player) : Player × Bool :=
  if p.wallClimbLevel > 0 ∧ ¬ p.grounded ∧ p.lastTouchingWall ≠ 0 then
    if (p.lastTouchingWall = -1 ∧ ks.keyA) ∨ (p.lastTouchingWall = 1 ∧ ks.keyD) then
      let q := { p with isWallSliding := true }
      if jumpInput ∧ (q.wallClimbLevel ≥ 2 ∨ q.mp > 0) then
        let r := { q with isWallClimbing := true, vy := -speed * (4/5) }
        (if r.wallClimbLevel < 2 then r.consumeMp (1 * dt) else r, false)
      else
        (if q.vy > 3/2 then { q with vy := 3/2 } else q, false)
    else if justJumped ∧
        ((p.lastTouchingWall = -1 ∧ ks.keyD) ∨ (p.lastTouchingWall = 1 ∧ ks.keyA)) then
      ({ p with vy := jumpForce,
                vx := if p.lastTouchingWall = -1 then speed * (3/2) else -speed * (3/2),
                wallJumpTimer := 1/5, jumpLocked := true,
                jumpsRemaining := p.extraJumps, dashesRemaining := p.extraDashes,
                lastTouchingWall := 0 }, true)
    else (p, false)
  else (p, false)

/-- Jump, double jump, wall slide/climb and wall jump (lines 372-450). -/
def jumpStep (ks : Keys) (speed jumpForce dt : ℚ) (p : Player) : Player :=
  let jumpInput : Bool := ks.keyW || ks.space
  let justJumped : Bool := jumpInput && !p.jumpLocked
  let p0 := { p with isWallSliding := false, isWallClimbing := false }
  let wall := wallStep ks speed jumpForce dt jumpInput justJumped p0
  let q := wall.1
  let didWallJump := wall.2
  if jumpInput ∧ ¬ didWallJump then
    if q.grounded ∧ ¬ q.jumpLocked then
      { q with vy := jumpForce, grounded := false, jumpLocked := true,
               jumpsRemaining := q.extraJumps, dashesRemaining := q.extraDashes }
    else if ¬ q.grounded ∧ ¬ q.jumpLocked ∧ q.jumpsRemaining > 0 ∧ ¬ q.isWallSliding then
      { q with vy := jumpForce * jsOr q.doubleJumpMult 1,
               jumpsRemaining := q.jumpsRemaining - 1, jumpLocked := true }
    else q
  else if ¬ jumpInput then { q with jumpLocked := false }
  else q

/-- Gravity with (fast-)fall-speed cap (lines 452-458); the gravity
increment is applied once per tick, with no `dt` scaling. -/
def gravityStep (ds : GlobalSettings) (ks : Keys) (gravity : ℚ) (p : Player) : Player :=
  if ¬ p.isWallClimbing then
    let vy := p.vy + gravity
    let maxFall := if ks.keyS then ds.fastFallSpeed else ds.maxFallSpeed
    { p with vy := if vy > maxFall then maxFall else vy }
  else p

/-- One jump pad (body of the loop at lines 466-491). -/
def jumpPadOne (p : Player) (jp : JumpPad) : Player :=
  if p.x + p.width > jp.x ∧ p.x < jp.x + jp.width ∧
      p.y + p.height ≥ jp.y ∧ p.y + p.height ≤ jp.y + 20 ∧ p.vy ≥ 0 then
    let jf0 := jp.jumpForce.getD (-20)
    let jf := if jf0 ≥ 0 then -20 else jf0
    { p with vy := jf, y := jp.y - p.height, grounded := false, jumpLocked := true,
             jumpsRemaining := p.extraJumps, dashesRemaining := p.extraDashes,
             isWallClimbing := false, isWallSliding := false }
  else p

/-- Jump pad collision pass (lines 464-492). -/
def jumpPadsStep (jumppads : List JumpPad) (p : Player) : Player :=
  jumppads.foldl jumpPadOne p

/-- The x integration line `this.x += this.vx` (line 495), fixed-step. -/
def moveX (p : Player) : Player := { p with x := p.x + p.vx }

/-- World left/right boundary clamping (lines 497-507). -/
def xBoundary (ls : LevelSettings) (p : Player) : Player :=
  if p.x < 0 then { p with x := 0, vx := 0, lastTouchingWall := -1 }
  else if p.x + p.width > ls.worldWidth then
    { p with x := ls.worldWidth - p.width, vx := 0, lastTouchingWall := 1 }
  else { p with lastTouchingWall := 0 }

/-- One platform of the x collision pass (body of the loop at lines 509-525). -/
def xCollideOne (p : Player) (plat : Rect) : Player :=
  if p.x + p.width > plat.x ∧ p.x < plat.x + plat.width ∧
      p.y + p.height > plat.y ∧ p.y < plat.y + plat.height then
    if p.vx > 0 then { p with x := plat.x - p.width, vx := 0, lastTouchingWall := 1 }
    else if p.vx < 0 then { p with x := plat.x + plat.width, vx := 0, lastTouchingWall := -1 }
    else p
  else p

/-- The whole x-axis movement and collision pass (lines 494-525). -/
def xAxisStep (ls : LevelSettings) (platforms : List Rect) (p : Player) : Player :=
  platforms.foldl xCollideOne (xBoundary ls (moveX p))

/-- The y integration line `this.y += this.vy` (line 528), fixed-step. -/
def moveY (p : Player) : Player := { p with y := p.y + p.vy }

/-- World top boundary clamping (lines 530-533). -/
def yBoundary (p : Player) : Player :=
  if p.y < 0 then { p with y := 0, vy := if p.vy < 0 then 0 else p.vy } else p

/-- One platform of the y collision pass (body of the loop at lines 536-553). -/
def yCollideOne (p : Player) (plat : Rect) : Player :=
  if p.x + p.width > plat.x ∧ p.x < plat.x + plat.width ∧
      p.y + p.height > plat.y ∧ p.y < plat.y + plat.height then
    if p.vy > 0 then
      { p with y := plat.y - p.height, vy := 0, grounded := true,
               jumpsRemaining := p.extraJumps, dashesRemaining := p.extraDashes }
    else if p.vy < 0 then { p with y := plat.y + plat.height, vy := 0 }
    else p
  else p

/-- The whole y-axis movement and collision pass (lines 527-553); `grounded`
is cleared before the platform loop (line 535). -/
def yAxisStep (platforms : List Rect) (p : Player) : Player :=
  platforms.foldl yCollideOne { yBoundary (moveY p) with grounded := false }

/-- Fall-damage and respawn logic (lines 555-568); the trail reset is
rendering-only and omitted. -/
def fallStep (ls : LevelSettings) (spawn : Spawn) (p : Player) : Player :=
  if p.y > ls.worldHeight + 100 then
    let damage := jsOr ls.fallDamage 20
    let q := p.takeDamage damage
    if q.hp > 0 then { q with x := spawn.x, y := spawn.y, vx := 0, vy := 0 } else q
  else p

/-- `Player.update(platforms, levelSettings, dt)` (lines 307-569).  The
ambient globals the source reads (`defaultSettings`, `keys`,
`game.currentLevelData.jumppads`, `game.currentLevelData.spawn`) are passed
explicitly.  The local constants `speed`, `jumpForce` and `gravity` are
captured after the timer step, before the dash can start this tick, exactly
as in the source (lines 325-328). -/
def Player.update (ds : GlobalSettings) (platforms : List Rect) (ls : LevelSettings)
    (ks : Keys) (jumppads : List JumpPad) (spawn : Spawn) (dt : ℚ) (p : Player) : Player :=
  let p1 := timersStep dt (invulnStep p)
  let speed := if p1.isDashing then ds.speed * jsOr p1.dashSpeedMult 4 else ds.speed
  let jumpForce := ds.jumpForce
  let gravity := if p1.isDashing then 0 else ds.gravity
  let p2 := mpRegenStep ls dt p1
  let p3 := horizontalStep ds ks speed dt p2
  let p4 := dashStep ks p3
  let p5 := jumpStep ks speed jumpForce dt p4
  let p6 := gravityStep ds ks gravity p5
  let p7 := jumpPadsStep jumppads p6
  let p8 := xAxisStep ls platforms p7
  let p9 := yAxisStep platforms p8
  fallStep ls spawn p9

/-- The source's capping idiom `if a > m then m else a` is `min a m`. -/
theorem cap_eq_min (a m : ℚ) : (if a > m then m else a) = min a m := by
  rcases lt_or_le m a with hd | hd
  · rw [if_pos hd, min_eq_right hd.le]
  · rw [if_neg (not_lt.mpr hd), min_eq_left hd]

/-- A concrete platform rectangle used to instantiate the theorems. -/
def samplePlatform : Rect := ⟨90, 120, 100, 20⟩

/-- A concrete airborne falling body used to instantiate the theorems. -/
def fallingPlayer : Player := { samplePlayer with vy := 5, grounded := false }

/-- C6: in the y-axis collision pass, a platform overlapped while moving
down places the body on the platform's top, zeroes `vy`, sets `grounded`,
and resets `jumpsRemaining`/`dashesRemaining` to `extraJumps`/`extraDashes`;
a platform overlapped while moving up places the body below the platform's
underside and zeroes `vy` without touching `grounded`. -/
theorem C6_yCollision (p : Player) (plat : Rect)
    (hov : p.x + p.width > plat.x ∧ p.x < plat.x + plat.width ∧
      p.y + p.height > plat.y ∧ p.y < plat.y + plat.height) :
    (0 < p.vy →
      yCollideOne p plat =
        { p with y := plat.y - p.height, vy := 0, grounded := true,
                 jumpsRemaining := p.extraJumps, dashesRemaining := p.extraDashes }) ∧
    (p.vy < 0 →
      yCollideOne p plat = { p with y := plat.y + plat.height, vy := 0 } ∧
      (yCollideOne p plat).grounded = p.grounded) := by
  constructor
  · intro hv
    rw [yCollideOne, if_pos hov, if_pos hv]
  · intro hv
    have e : yCollideOne p plat = { p with y := plat.y + plat.height, vy := 0 } := by
      rw [yCollideOne, if_pos hov, if_neg (by linarith : ¬ 0 < p.vy), if_pos hv]
    exact ⟨e, by rw [e]⟩

theorem C6_yCollision_witness :
    (fallingPlayer.x + fallingPlayer.width > samplePlatform.x ∧
      fallingPlayer.x < samplePlatform.x + samplePlatform.width ∧
      fallingPlayer.y + fallingPlayer.height > samplePlatform.y ∧
      fallingPlayer.y < samplePlatform.y + samplePlatform.height) ∧
    ((0 < fallingPlayer.vy →
      yCollideOne fallingPlayer samplePlatform =
        { fallingPlayer with
          y := samplePlatform.y - fallingPlayer.height, vy := 0,
          grounded := true, jumpsRemaining := fallingPlayer.extraJumps,
          dashesRemaining := fallingPlayer.extraDashes }) ∧
    (fallingPlayer.vy < 0 →
      yCollideOne fallingPlayer samplePlatform =
        { fallingPlayer with
          y := samplePlatform.y + samplePlatform.height, vy := 0 } ∧
      (yCollideOne fallingPlayer samplePlatform).grounded = fallingPlayer.grounded)) :=
  ⟨by norm_num [fallingPlayer, samplePlayer, samplePlatform],
    C6_yCollision fallingPlayer samplePlatform
      (by norm_num [fallingPlayer, samplePlayer, samplePlatform])⟩

/-- C9: a triggered jump pad always launches upward: the resulting `vy` is
strictly negative, and if `jumpForce` is missing or resolves to a
non-negative value the safe default `-20` is used. -/
theorem C9_jumpPad (p : Player) (jp : JumpPad)
    (h : p.x + p.width > jp.x ∧ p.x < jp.x + jp.width ∧
      p.y + p.height ≥ jp.y ∧ p.y + p.height ≤ jp.y + 20 ∧ p.vy ≥ 0) :
    (jumpPadOne p jp).vy < 0 ∧
    ((∀ jf, jp.jumpForce = some jf → 0 ≤ jf) → (jumpPadOne p jp).vy = -20) := by
  have hvy : (jumpPadOne p jp).vy =
      (if jp.jumpForce.getD (-20) ≥ 0 then (-20 : ℚ) else jp.jumpForce.getD (-20)) := by
    rw [jumpPadOne, if_pos h]
  constructor
  · rw [hvy]
    split
    · norm_num
    · next hneg => exact not_le.mp hneg
  · intro hall
    rw [hvy]
    cases hj : jp.jumpForce with
    | none => norm_num [hj]
    | some v =>
      have hv := hall v hj
      simp [hj, hv]

/-- A concrete jump pad with no `jumpForce` field. -/
def samplePad : JumpPad := ⟨90, 130, 100, 10, none⟩

theorem C9_jumpPad_witness :
    (samplePlayer.x + samplePlayer.width > samplePad.x ∧
      samplePlayer.x < samplePad.x + samplePad.width ∧
      samplePlayer.y + samplePlayer.height ≥ samplePad.y ∧
      samplePlayer.y + samplePlayer.height ≤ samplePad.y + 20 ∧ samplePlayer.vy ≥ 0) ∧
    ((jumpPadOne samplePlayer samplePad).vy < 0 ∧
      ((∀ jf, samplePad.jumpForce = some jf → 0 ≤ jf) →
        (jumpPadOne samplePlayer samplePad).vy = -20)) :=
  ⟨by norm_num [samplePlayer, samplePad],
    C9_jumpPad samplePlayer samplePad (by norm_num [samplePlayer, samplePad])⟩

/-! ## Level-settings independence of the body physics (C10) -/

theorem mpRegenStep_settings (ls1 ls2 : LevelSettings) (hmp : ls1.mpRegen = ls2.mpRegen)
    (dt : ℚ) (p : Player) : mpRegenStep ls1 dt p = mpRegenStep ls2 dt p := by
  rw [mpRegenStep, mpRegenStep, hmp]

theorem xAxisStep_settings (ls1 ls2 : LevelSettings) (hw : ls1.worldWidth = ls2.worldWidth)
    (platforms : List Rect) (p : Player) :
    xAxisStep ls1 platforms p = xAxisStep ls2 platforms p := by
  rw [xAxisStep, xAxisStep, xBoundary, xBoundary, hw]

theorem fallStep_settings (ls1 ls2 : LevelSettings) (hh : ls1.worldHeight = ls2.worldHeight)
    (hf : ls1.fallDamage = ls2.fallDamage) (spawn : Spawn) (p : Player) :
    fallStep ls1 spawn p = fallStep ls2 spawn p := by
  rw [fallStep, fallStep, hh, hf]

/-- C10: the body's physics constants come from the global default settings
only.  Two updates on the same body, input and geometry whose level
settings agree on the fields `Player.update` actually reads (`mpRegen`,
`worldWidth`, `worldHeight`, `fallDamage`) — in particular two settings
records differing only in `gravity`, `friction`, `speed`, `jumpForce`,
`maxFallSpeed` or `fastFallSpeed` — produce identical resulting states,
hence identical position and velocity. -/
theorem C10_settingsIndependence (ds : GlobalSettings) (platforms : List Rect)
    (ks : Keys) (jumppads : List JumpPad) (spawn : Spawn) (dt : ℚ) (p : Player)
    (ls1 ls2 : LevelSettings)
    (hmp : ls1.mpRegen = ls2.mpRegen) (hw : ls1.worldWidth = ls2.worldWidth)
    (hh : ls1.worldHeight = ls2.worldHeight) (hf : ls1.fallDamage = ls2.fallDamage) :
    Player.update ds platforms ls1 ks jumppads spawn dt p
      = Player.update ds platforms ls2 ks jumppads spawn dt p := by
  simp only [Player.update]
  rw [mpRegenStep_settings ls1 ls2 hmp, xAxisStep_settings ls1 ls2 hw,
      fallStep_settings ls1 ls2 hh hf]

/-- The stock global settings record (source lines 15-30). -/
def stockSettings : GlobalSettings :=
  { gravity := 2/5, friction := 17/20, jumpForce := -11, speed := 4,
    maxFallSpeed := 9, fastFallSpeed := 15 }

/-- A concrete level-settings record. -/
def sampleLevelSettings : LevelSettings :=
  { gravity := 2/5, friction := 17/20, speed := 4, jumpForce := -11,
    maxFallSpeed := 9, fastFallSpeed := 15, worldWidth := 1000, worldHeight := 1000,
    playerMaxHp := 100, playerMaxMp := 100, platformCost := 10,
    fallDamage := some 20, mpRegen := some (1/10) }

/-- The same level settings with every body-physics field changed. -/
def alteredLevelSettings : LevelSettings :=
  { sampleLevelSettings with
    gravity := 99, friction := 0, speed := 77,
    jumpForce := 5, maxFallSpeed := 1, fastFallSpeed := 2 }

/-- The all-keys-up input snapshot. -/
def noKeys : Keys := ⟨false, false, false, false, false, false, false⟩

theorem C10_settingsIndependence_witness :
    sampleLevelSettings.mpRegen = alteredLevelSettings.mpRegen ∧
    sampleLevelSettings.worldWidth = alteredLevelSettings.worldWidth ∧
    sampleLevelSettings.worldHeight = alteredLevelSettings.worldHeight ∧
    sampleLevelSettings.fallDamage = alteredLevelSettings.fallDamage ∧
    Player.update stockSettings [samplePlatform] sampleLevelSettings noKeys
        [samplePad] ⟨100, 100⟩ (1/60) fallingPlayer
      = Player.update stockSettings [samplePlatform] alteredLevelSettings noKeys
        [samplePad] ⟨100, 100⟩ (1/60) fallingPlayer :=
  ⟨rfl, rfl, rfl, rfl,
    C10_settingsIndependence stockSettings [samplePlatform] noKeys [samplePad]
      ⟨100, 100⟩ (1/60) fallingPlayer sampleLevelSettings alteredLevelSettings
      rfl rfl rfl rfl⟩

/-! ## Fixed-step versus dt-scaled integration (C2) -/

/-- A concrete moving, invulnerable, airborne body. -/
def c2Player : Player :=
  { samplePlayer with
    vx := 4, grounded := false, invulnerable := true, invulnerableTimer := 30 }

/-- C2 counterexample: at a concrete tick with `dt = 1/30` s, the position
change is `vx` (one full unit step), not `vx * dt` (neither with the old nor
with the new velocity reading), the gravity increment is the full `gravity`
constant rather than `gravity * dt`, and the invulnerability timer loses
exactly one frame whether `dt` is `1/30` or `1/60`. -/
theorem C2_counterexample :
    (Player.update stockSettings [] sampleLevelSettings noKeys [] ⟨100, 100⟩
        (1/30) c2Player).x - c2Player.x
      ≠ (Player.update stockSettings [] sampleLevelSettings noKeys [] ⟨100, 100⟩
        (1/30) c2Player).vx * (1/30) ∧
    (Player.update stockSettings [] sampleLevelSettings noKeys [] ⟨100, 100⟩
        (1/30) c2Player).x - c2Player.x ≠ c2Player.vx * (1/30) ∧
    (Player.update stockSettings [] sampleLevelSettings noKeys [] ⟨100, 100⟩
        (1/30) c2Player).vy - c2Player.vy ≠ stockSettings.gravity * (1/30) ∧
    (Player.update stockSettings [] sampleLevelSettings noKeys [] ⟨100, 100⟩
        (1/30) c2Player).invulnerableTimer
      = (Player.update stockSettings [] sampleLevelSettings noKeys [] ⟨100, 100⟩
        (1/60) c2Player).invulnerableTimer := by
  have habs : |(17:ℚ)/5| = 17/5 := abs_of_pos (by norm_num)
  norm_num [habs, Player.update, invulnStep, timersStep, mpRegenStep, horizontalStep,
    dashStep, wallStep, jumpStep, gravityStep, jumpPadsStep, moveX, xBoundary, xAxisStep,
    moveY, yBoundary, yAxisStep, fallStep, jsOr, c2Player, samplePlayer,
    stockSettings, sampleLevelSettings, noKeys, Player.takeDamage]

/-- C2 (amended): the body's integration is fixed-step per frame, not
dt-scaled: the x and y integration add the raw velocity, the gravity step
adds the raw gravity constant (capped at the fall-speed limit), and the
invulnerability window counts down by exactly one frame per tick; the
dt-scaled quantities are the dash/wall-jump timers, cooldowns and MP
regeneration, exemplified here by the dash cooldown. -/
theorem C2_fixedStepIntegration (ds : GlobalSettings) (ks : Keys) (g dt : ℚ)
    (p : Player) :
    (moveX p).x = p.x + p.vx ∧
    (moveY p).y = p.y + p.vy ∧
    (p.isWallClimbing = false →
      (gravityStep ds ks g p).vy
        = min (p.vy + g) (if ks.keyS then ds.fastFallSpeed else ds.maxFallSpeed)) ∧
    (p.invulnerable = true →
      (invulnStep p).invulnerableTimer = p.invulnerableTimer - 1) ∧
    (0 < p.dashCooldown →
      (timersStep dt p).dashCooldown = p.dashCooldown - dt) := by
  refine ⟨rfl, rfl, ?_, ?_, ?_⟩
  · intro h
    have hc : ¬ p.isWallClimbing = true := by rw [h]; exact Bool.false_ne_true
    simp only [gravityStep, if_pos hc]
    rw [cap_eq_min]
  · intro h
    simp only [invulnStep, if_pos h]
  · intro h
    simp only [timersStep, if_pos h]
    split <;> rfl

/-- A concrete body inside the invulnerability window with a running dash
cooldown. -/
def c2aPlayer : Player :=
  { samplePlayer with
    grounded := false, invulnerable := true,
    invulnerableTimer := 30, dashCooldown := 1/2 }

theorem C2_fixedStepIntegration_witness :
    c2aPlayer.isWallClimbing = false ∧ c2aPlayer.invulnerable = true ∧
    (0 < c2aPlayer.dashCooldown) ∧
    ((moveX c2aPlayer).x = c2aPlayer.x + c2aPlayer.vx ∧
      (moveY c2aPlayer).y = c2aPlayer.y + c2aPlayer.vy ∧
      (c2aPlayer.isWallClimbing = false →
        (gravityStep stockSettings noKeys (2/5) c2aPlayer).vy
          = min (c2aPlayer.vy + 2/5)
              (if noKeys.keyS then stockSettings.fastFallSpeed
               else stockSettings.maxFallSpeed)) ∧
      (c2aPlayer.invulnerable = true →
        (invulnStep c2aPlayer).invulnerableTimer = c2aPlayer.invulnerableTimer - 1) ∧
      (0 < c2aPlayer.dashCooldown →
        (timersStep (1/30) c2aPlayer).dashCooldown = c2aPlayer.dashCooldown - 1/30)) :=
  ⟨rfl, rfl, by norm_num [c2aPlayer, samplePlayer],
    C2_fixedStepIntegration stockSettings noKeys (2/5) (1/30) c2aPlayer⟩

/-! ## hp/invulnerability preservation through the pipeline (towards C7) -/

theorem consumeMp_core (p : Player) (a : ℚ) :
    (p.consumeMp a).hp = p.hp ∧ (p.consumeMp a).invulnerable = p.invulnerable := by
  simp only [Player.consumeMp]
  constructor <;> (repeat' split) <;> rfl

theorem timersStep_core (dt : ℚ) (p : Player) :
    (timersStep dt p).hp = p.hp ∧ (timersStep dt p).invulnerable = p.invulnerable := by
  simp only [timersStep]
  constructor <;> (repeat' split) <;> rfl

theorem mpRegenStep_core (ls : LevelSettings) (dt : ℚ) (p : Player) :
    (mpRegenStep ls dt p).hp = p.hp ∧ (mpRegenStep ls dt p).invulnerable = p.invulnerable := by
  simp only [mpRegenStep]
  constructor <;> (repeat' split) <;> rfl

theorem horizontalStep_core (ds : GlobalSettings) (ks : Keys) (s dt : ℚ) (p : Player) :
    (horizontalStep ds ks s dt p).hp = p.hp ∧
    (horizontalStep ds ks s dt p).invulnerable = p.invulnerable := by
  simp only [horizontalStep]
  constructor <;> (repeat' split) <;> rfl

theorem dashStep_core (ks : Keys) (p : Player) :
    (dashStep ks p).hp = p.hp ∧ (dashStep ks p).invulnerable = p.invulnerable := by
  simp only [dashStep]
  constructor <;> (repeat' split) <;> rfl

theorem wallStep_core (ks : Keys) (s j dt : ℚ) (ji jj : Bool) (p : Player) :
    (wallStep ks s j dt ji jj p).1.hp = p.hp ∧
    (wallStep ks s j dt ji jj p).1.invulnerable = p.invulnerable := by
  simp only [wallStep, Player.consumeMp]
  constructor <;> (repeat' split) <;> rfl

theorem jumpStep_core (ks : Keys) (s j dt : ℚ) (p : Player) :
    (jumpStep ks s j dt p).hp = p.hp ∧
    (jumpStep ks s j dt p).invulnerable = p.invulnerable := by
  obtain ⟨h1, h2⟩ := wallStep_core ks s j dt (ks.keyW || ks.space)
    ((ks.keyW || ks.space) && !p.jumpLocked)
    { p with isWallSliding := false, isWallClimbing := false }
  simp only [jumpStep]
  constructor <;> (repeat' split) <;> first
    | exact h1
    | exact h2

theorem gravityStep_core (ds : GlobalSettings) (ks : Keys) (g : ℚ) (p : Player) :
    (gravityStep ds ks g p).hp = p.hp ∧
    (gravityStep ds ks g p).invulnerable = p.invulnerable := by
  simp only [gravityStep]
  constructor <;> (repeat' split) <;> rfl

theorem jumpPadOne_core (p : Player) (jp : JumpPad) :
    (jumpPadOne p jp).hp = p.hp ∧ (jumpPadOne p jp).invulnerable = p.invulnerable := by
  simp only [jumpPadOne]
  constructor <;> (repeat' split) <;> rfl

theorem xBoundary_core (ls : LevelSettings) (p : Player) :
    (xBoundary ls p).hp = p.hp ∧ (xBoundary ls p).invulnerable = p.invulnerable := by
  simp only [xBoundary]
  constructor <;> (repeat' split) <;> rfl

theorem xCollideOne_core (p : Player) (a : Rect) :
    (xCollideOne p a).hp = p.hp ∧ (xCollideOne p a).invulnerable = p.invulnerable := by
  simp only [xCollideOne]
  constructor <;> (repeat' split) <;> rfl

theorem yBoundary_core (p : Player) :
    (yBoundary p).hp = p.hp ∧ (yBoundary p).invulnerable = p.invulnerable := by
  simp only [yBoundary]
  constructor <;> (repeat' split) <;> rfl

theorem yCollideOne_core (p : Player) (a : Rect) :
    (yCollideOne p a).hp = p.hp ∧ (yCollideOne p a).invulnerable = p.invulnerable := by
  simp only [yCollideOne]
  constructor <;> (repeat' split) <;> rfl

theorem foldl_core {α : Type} (g : Player → α → Player)
    (hg : ∀ p a, (g p a).hp = p.hp ∧ (g p a).invulnerable = p.invulnerable) :
    ∀ (l : List α) (p : Player),
      (l.foldl g p).hp = p.hp ∧ (l.foldl g p).invulnerable = p.invulnerable
  | [], _ => ⟨rfl, rfl⟩
  | a :: t, p => by
    rw [List.foldl_cons]
    exact ⟨(foldl_core g hg t (g p a)).1.trans (hg p a).1,
           (foldl_core g hg t (g p a)).2.trans (hg p a).2⟩

theorem jumpPadsStep_core (pads : List JumpPad) (p : Player) :
    (jumpPadsStep pads p).hp = p.hp ∧ (jumpPadsStep pads p).invulnerable = p.invulnerable :=
  foldl_core jumpPadOne jumpPadOne_core pads p

theorem xAxisStep_core (ls : LevelSettings) (platforms : List Rect) (p : Player) :
    (xAxisStep ls platforms p).hp = p.hp ∧
    (xAxisStep ls platforms p).invulnerable = p.invulnerable := by
  simp only [xAxisStep]
  exact ⟨(foldl_core xCollideOne xCollideOne_core platforms _).1.trans
          (xBoundary_core ls (moveX p)).1,
         (foldl_core xCollideOne xCollideOne_core platforms _).2.trans
          (xBoundary_core ls (moveX p)).2⟩

theorem yAxisStep_core (platforms : List Rect) (p : Player) :
    (yAxisStep platforms p).hp = p.hp ∧
    (yAxisStep platforms p).invulnerable = p.invulnerable := by
  simp only [yAxisStep]
  exact ⟨(foldl_core yCollideOne yCollideOne_core platforms _).1.trans
          (yBoundary_core (moveY p)).1,
         (foldl_core yCollideOne yCollideOne_core platforms _).2.trans
          (yBoundary_core (moveY p)).2⟩

/-- The chain of update steps between the invulnerability countdown and the
fall check preserves hp and the invulnerability flag. -/
theorem midChain_core (ds : GlobalSettings) (platforms : List Rect) (ls : LevelSettings)
    (ks : Keys) (jumppads : List JumpPad) (s j g dt : ℚ) (p : Player) :
    (yAxisStep platforms (xAxisStep ls platforms (jumpPadsStep jumppads (gravityStep ds ks g
      (jumpStep ks s j dt (dashStep ks (horizontalStep ds ks s dt
      (mpRegenStep ls dt (timersStep dt p))))))))).hp = p.hp ∧
    (yAxisStep platforms (xAxisStep ls platforms (jumpPadsStep jumppads (gravityStep ds ks g
      (jumpStep ks s j dt (dashStep ks (horizontalStep ds ks s dt
      (mpRegenStep ls dt (timersStep dt p))))))))).invulnerable = p.invulnerable :=
  ⟨(yAxisStep_core _ _).1.trans ((xAxisStep_core _ _ _).1.trans
    ((jumpPadsStep_core _ _).1.trans ((gravityStep_core _ _ _ _).1.trans
    ((jumpStep_core _ _ _ _ _).1.trans ((dashStep_core _ _).1.trans
    ((horizontalStep_core _ _ _ _ _).1.trans ((mpRegenStep_core _ _ _).1.trans
    (timersStep_core _ _).1))))))),
   (yAxisStep_core _ _).2.trans ((xAxisStep_core _ _ _).2.trans
    ((jumpPadsStep_core _ _).2.trans ((gravityStep_core _ _ _ _).2.trans
    ((jumpStep_core _ _ _ _ _).2.trans ((dashStep_core _ _).2.trans
    ((horizontalStep_core _ _ _ _ _).2.trans ((mpRegenStep_core _ _ _).2.trans
    (timersStep_core _ _).2)))))))⟩

/-- With at least two frames left on the window, the countdown keeps the
body invulnerable for the rest of the tick. -/
theorem invulnerable_sticks (p : Player) (h : p.invulnerable = true)
    (ht : 2 ≤ p.invulnerableTimer) :
    (invulnStep p).hp = p.hp ∧ (invulnStep p).invulnerable = true := by
  have hc : ¬ (p.invulnerableTimer - 1 ≤ 0) := by omega
  constructor
  · simp [invulnStep, h, hc]
  · simp [invulnStep, h, hc]

/-- While invulnerable, the fall check cannot change hp (the teleport, if
any, only moves the body). -/
theorem fallStep_core_invuln (ls : LevelSettings) (spawn : Spawn) (p : Player)
    (h : p.invulnerable = true) : (fallStep ls spawn p).hp = p.hp := by
  simp only [fallStep]
  split
  · rw [takeDamage_noop _ _ h]
    split <;> rfl
  · rfl

/-- An invulnerable body with at least two frames left on the window takes
no damage anywhere in a full update tick. -/
theorem update_hp_of_invulnerable (ds : GlobalSettings) (platforms : List Rect)
    (ls : LevelSettings) (ks : Keys) (jumppads : List JumpPad) (spawn : Spawn)
    (dt : ℚ) (q : Player) (h : q.invulnerable = true) (ht : 2 ≤ q.invulnerableTimer) :
    (Player.update ds platforms ls ks jumppads spawn dt q).hp = q.hp := by
  simp only [Player.update]
  exact (fallStep_core_invuln ls spawn _
      ((midChain_core ds platforms ls ks jumppads _ _ _ dt (invulnStep q)).2.trans
        (invulnerable_sticks q h ht).2)).trans
    ((midChain_core ds platforms ls ks jumppads _ _ _ dt (invulnStep q)).1.trans
      (invulnerable_sticks q h ht).1)

/-- C7: a vulnerable body past the kill plane takes the fall damage exactly
once (hp drops by the defense-adjusted `fallDamage`, floored at 0, and the
30-frame invulnerability window opens); if hp is still positive it is
teleported to the spawn point with both velocity components zeroed; and
a body inside the invulnerability window loses no hp in a subsequent full
update tick, so remaining past the kill plane after the teleport does not
drain hp per tick. -/
theorem C7_fallRespawn (ds : GlobalSettings) (platforms : List Rect) (ls : LevelSettings)
    (ks : Keys) (jumppads : List JumpPad) (spawn : Spawn) (dt : ℚ) (p : Player)
    (h1 : p.invulnerable = false) (h2 : p.y > ls.worldHeight + 100) :
    ((fallStep ls spawn p).hp = max (p.hp - max (jsOr ls.fallDamage 20 - p.defense) 0) 0 ∧
      (fallStep ls spawn p).invulnerable = true ∧
      (fallStep ls spawn p).invulnerableTimer = 30 ∧
      (0 < (fallStep ls spawn p).hp →
        (fallStep ls spawn p).x = spawn.x ∧ (fallStep ls spawn p).y = spawn.y ∧
        (fallStep ls spawn p).vx = 0 ∧ (fallStep ls spawn p).vy = 0)) ∧
    (∀ q : Player, q.invulnerable = true → 2 ≤ q.invulnerableTimer →
      (Player.update ds platforms ls ks jumppads spawn dt q).hp = q.hp) := by
  constructor
  · have e : fallStep ls spawn p =
        (if (p.takeDamage (jsOr ls.fallDamage 20)).hp > 0
         then { p.takeDamage (jsOr ls.fallDamage 20) with
                x := spawn.x, y := spawn.y, vx := 0, vy := 0 }
         else p.takeDamage (jsOr ls.fallDamage 20)) := by
      simp only [fallStep]
      rw [if_pos h2]
    obtain ⟨thp, tinv, ttimer⟩ := takeDamage_hit p (jsOr ls.fallDamage 20) h1
    rw [e]
    by_cases hpos : (p.takeDamage (jsOr ls.fallDamage 20)).hp > 0
    · rw [if_pos hpos]
      exact ⟨thp, tinv, ttimer, fun _ => ⟨rfl, rfl, rfl, rfl⟩⟩
    · rw [if_neg hpos]
      exact ⟨thp, tinv, ttimer, fun hc => absurd hc hpos⟩
  · exact fun q hq htq =>
      update_hp_of_invulnerable ds platforms ls ks jumppads spawn dt q hq htq

/-- A concrete body below the kill plane of `sampleLevelSettings`. -/
def fallenPlayer : Player := { samplePlayer with y := 2000, vy := 9 }

theorem C7_fallRespawn_witness :
    fallenPlayer.invulnerable = false ∧
    fallenPlayer.y > sampleLevelSettings.worldHeight + 100 ∧
    (((fallStep sampleLevelSettings ⟨100, 100⟩ fallenPlayer).hp
        = max (fallenPlayer.hp
            - max (jsOr sampleLevelSettings.fallDamage 20 - fallenPlayer.defense) 0) 0 ∧
      (fallStep sampleLevelSettings ⟨100, 100⟩ fallenPlayer).invulnerable = true ∧
      (fallStep sampleLevelSettings ⟨100, 100⟩ fallenPlayer).invulnerableTimer = 30 ∧
      (0 < (fallStep sampleLevelSettings ⟨100, 100⟩ fallenPlayer).hp →
        (fallStep sampleLevelSettings ⟨100, 100⟩ fallenPlayer).x = (100:ℚ) ∧
        (fallStep sampleLevelSettings ⟨100, 100⟩ fallenPlayer).y = (100:ℚ) ∧
        (fallStep sampleLevelSettings ⟨100, 100⟩ fallenPlayer).vx = 0 ∧
        (fallStep sampleLevelSettings ⟨100, 100⟩ fallenPlayer).vy = 0)) ∧
    (∀ q : Player, q.invulnerable = true → 2 ≤ q.invulnerableTimer →
      (Player.update stockSettings [samplePlatform] sampleLevelSettings noKeys []
        ⟨100, 100⟩ (1/60) q).hp = q.hp)) :=
  ⟨rfl, by norm_num [fallenPlayer, samplePlayer, sampleLevelSettings],
    C7_fallRespawn stockSettings [samplePlatform] sampleLevelSettings noKeys []
      ⟨100, 100⟩ (1/60) fallenPlayer rfl
      (by norm_num [fallenPlayer, samplePlayer, sampleLevelSettings])⟩

/-! ## Laser beam clipping (`Game.getLaserBounds`, source lines 3539-3606) -/

/-- A hazard record as the laser geometry and the dormancy system read it. -/
structure Trap where
  x : ℚ
  y : ℚ
  width : ℚ
  height : ℚ
  rotation : ℕ
  dormant : Bool
  deriving DecidableEq

/-- The record returned by `getLaserBounds` (source lines 3599-3605). -/
structure LaserBounds where
  minX : ℚ
  maxX : ℚ
  minY : ℚ
  maxY : ℚ
  startX : ℚ
  startY : ℚ
  endX : ℚ
  endY : ℚ
  deriving DecidableEq

/-- The rightward clipping loop (rotation 0, source lines 3564-3571):
each platform vertically containing the beam line whose left face lies in
`[startX, endX)` pulls `endX` in to that left face. -/
def clipRight (sx sy : ℚ) : ℚ → List Rect → ℚ
  | endX, [] => endX
  | endX, p :: ps =>
      clipRight sx sy
        (if sy ≥ p.y ∧ sy ≤ p.y + p.height ∧ p.x ≥ sx ∧ p.x < endX then p.x else endX) ps

/-- The leftward clipping loop (rotation 180, source lines 3572-3577). -/
def clipLeft (sx sy : ℚ) : ℚ → List Rect → ℚ
  | endX, [] => endX
  | endX, p :: ps =>
      clipLeft sx sy
        (if sy ≥ p.y ∧ sy ≤ p.y + p.height ∧ p.x + p.width ≤ sx ∧ p.x + p.width > endX
         then p.x + p.width else endX) ps

/-- The downward clipping loop (rotation 90, source lines 3584-3588). -/
def clipDown (sx sy : ℚ) : ℚ → List Rect → ℚ
  | endY, [] => endY
  | endY, p :: ps =>
      clipDown sx sy
        (if sx ≥ p.x ∧ sx ≤ p.x + p.width ∧ p.y ≥ sy ∧ p.y < endY then p.y else endY) ps

/-- The upward clipping loop (rotation 270, source lines 3589-3594). -/
def clipUp (sx sy : ℚ) : ℚ → List Rect → ℚ
  | endY, [] => endY
  | endY, p :: ps =>
      clipUp sx sy
        (if sx ≥ p.x ∧ sx ≤ p.x + p.width ∧ p.y + p.height ≤ sy ∧ p.y + p.height > endY
         then p.y + p.height else endY) ps

/-- `Game.getLaserBounds(trap, platforms)` (source lines 3539-3606). -/
def getLaserBounds (trap : Trap) (platforms : List Rect) : LaserBounds :=
  let rotation := trap.rotation % 360
  if rotation = 90 then
    let startX := trap.x
    let endX := trap.x
    let startY := trap.y - trap.width / 2
    let endY := clipDown startX startY (trap.y + trap.width / 2) platforms
    ⟨min startX endX, max startX endX, min startY endY, max startY endY,
      startX, startY, endX, endY⟩
  else if rotation = 270 then
    let startX := trap.x
    let endX := trap.x
    let startY := trap.y + trap.width / 2
    let endY := clipUp startX startY (trap.y - trap.width / 2) platforms
    ⟨min startX endX, max startX endX, min startY endY, max startY endY,
      startX, startY, endX, endY⟩
  else if rotation = 180 then
    let startY := trap.y
    let endY := trap.y
    let startX := trap.x + trap.width / 2
    let endX := clipLeft startX startY (trap.x - trap.width / 2) platforms
    ⟨min startX endX, max startX endX, min startY endY, max startY endY,
      startX, startY, endX, endY⟩
  else
    let startY := trap.y
    let endY := trap.y
    let startX := trap.x - trap.width / 2
    let endX := clipRight startX startY (trap.x + trap.width / 2) platforms
    ⟨min startX endX, max startX endX, min startY endY, max startY endY,
      startX, startY, endX, endY⟩

/-- The rightward clip never lengthens the beam. -/
theorem clipRight_le (sx sy : ℚ) (ps : List Rect) : ∀ a, clipRight sx sy a ps ≤ a := by
  induction ps with
  | nil => intro a; exact le_refl a
  | cons p t ih =>
    intro a
    simp only [clipRight]
    split
    · next hc => exact (ih p.x).trans hc.2.2.2.le
    · exact ih a

/-- With no blocking platform (relative to the nominal end `a0`), the clip
returns its accumulator unchanged. -/
theorem clipRight_no_block (sx sy a0 : ℚ) (ps : List Rect)
    (h : ∀ p ∈ ps, ¬ (sy ≥ p.y ∧ sy ≤ p.y + p.height ∧ p.x ≥ sx ∧ p.x < a0)) :
    ∀ a, a ≤ a0 → clipRight sx sy a ps = a := by
  induction ps with
  | nil => intro a _; rfl
  | cons p t ih =>
    intro a ha
    simp only [clipRight]
    have hnp := h p (List.mem_cons_self p t)
    have hcond : ¬ (sy ≥ p.y ∧ sy ≤ p.y + p.height ∧ p.x ≥ sx ∧ p.x < a) := by
      intro hc
      exact hnp ⟨hc.1, hc.2.1, hc.2.2.1, lt_of_lt_of_le hc.2.2.2 ha⟩
    rw [if_neg hcond]
    exact ih (fun q hq => h q (List.mem_cons_of_mem p hq)) a ha

/-- The clip result is bounded by every blocking platform's left face. -/
theorem clipRight_le_blocker (sx sy a0 : ℚ) (q : Rect)
    (hb : sy ≥ q.y ∧ sy ≤ q.y + q.height ∧ q.x ≥ sx ∧ q.x < a0) :
    ∀ ps : List Rect, q ∈ ps → ∀ a, a ≤ a0 → clipRight sx sy a ps ≤ q.x := by
  intro ps
  induction ps with
  | nil => intro h; cases h
  | cons p t ih =>
    intro hq a ha
    simp only [clipRight]
    rcases List.mem_cons.mp hq with heq | hmem
    · subst heq
      by_cases hc : sy ≥ q.y ∧ sy ≤ q.y + q.height ∧ q.x ≥ sx ∧ q.x < a
      · rw [if_pos hc]
        exact clipRight_le sx sy t q.x
      · rw [if_neg hc]
        have hle : a ≤ q.x := not_lt.mp (fun hlt => hc ⟨hb.1, hb.2.1, hb.2.2.1, hlt⟩)
        exact (clipRight_le sx sy t a).trans hle
    · split
      · next hc => exact ih hmem p.x (hc.2.2.2.le.trans ha)
      · exact ih hmem a ha

/-- The clip result is the accumulator or some qualifying platform's left
face. -/
theorem clipRight_mem (sx sy : ℚ) (ps : List Rect) :
    ∀ a, clipRight sx sy a ps = a ∨
      ∃ p ∈ ps, (sy ≥ p.y ∧ sy ≤ p.y + p.height ∧ p.x ≥ sx) ∧
        clipRight sx sy a ps = p.x := by
  induction ps with
  | nil => intro a; exact Or.inl rfl
  | cons p t ih =>
    intro a
    simp only [clipRight]
    by_cases hc : sy ≥ p.y ∧ sy ≤ p.y + p.height ∧ p.x ≥ sx ∧ p.x < a
    · rw [if_pos hc]
      rcases ih p.x with h | ⟨r, hr, hv, he⟩
      · exact Or.inr ⟨p, List.mem_cons_self p t, ⟨hc.1, hc.2.1, hc.2.2.1⟩, h⟩
      · exact Or.inr ⟨r, List.mem_cons_of_mem p hr, hv, he⟩
    · rw [if_neg hc]
      rcases ih a with h | ⟨r, hr, hv, he⟩
      · exact Or.inl h
      · exact Or.inr ⟨r, List.mem_cons_of_mem p hr, hv, he⟩

/-- C4: for a laser with rotation 0 the beam fires rightward from
`x - width/2` along the line `y`; the computed far endpoint is the nominal
extent `x + width/2` when no platform blocks the beam, and otherwise is the
left face `q.x` of the nearest blocking platform (a platform blocks when its
box vertically contains the beam line and its left face lies in the beam's
nominal span).  The endpoint is a pure function of the platform list passed
at each evaluation, so it follows the platforms' current positions. -/
theorem C4_laserClipping (trap : Trap) (platforms : List Rect)
    (hrot : trap.rotation % 360 = 0) :
    ((∀ p ∈ platforms,
        ¬ (trap.y ≥ p.y ∧ trap.y ≤ p.y + p.height ∧
            p.x ≥ trap.x - trap.width / 2 ∧ p.x < trap.x + trap.width / 2)) →
      (getLaserBounds trap platforms).endX = trap.x + trap.width / 2) ∧
    (∀ q ∈ platforms,
      (trap.y ≥ q.y ∧ trap.y ≤ q.y + q.height ∧
        q.x ≥ trap.x - trap.width / 2 ∧ q.x < trap.x + trap.width / 2) →
      (∀ p ∈ platforms,
        (trap.y ≥ p.y ∧ trap.y ≤ p.y + p.height ∧
          p.x ≥ trap.x - trap.width / 2 ∧ p.x < trap.x + trap.width / 2) → q.x ≤ p.x) →
      (getLaserBounds trap platforms).endX = q.x) ∧
    (getLaserBounds trap platforms).startX = trap.x - trap.width / 2 ∧
    (getLaserBounds trap platforms).startY = trap.y := by
  have e : getLaserBounds trap platforms =
      ⟨min (trap.x - trap.width / 2)
          (clipRight (trap.x - trap.width / 2) trap.y (trap.x + trap.width / 2) platforms),
        max (trap.x - trap.width / 2)
          (clipRight (trap.x - trap.width / 2) trap.y (trap.x + trap.width / 2) platforms),
        min trap.y trap.y, max trap.y trap.y,
        trap.x - trap.width / 2, trap.y,
        clipRight (trap.x - trap.width / 2) trap.y (trap.x + trap.width / 2) platforms,
        trap.y⟩ := by
    simp only [getLaserBounds, hrot]
    norm_num
  rw [e]
  refine ⟨?_, ?_, rfl, rfl⟩
  · intro h
    exact clipRight_no_block _ _ _ platforms h _ (le_refl _)
  · intro q hq hb hmin
    refine le_antisymm (clipRight_le_blocker _ _ _ q hb platforms hq _ (le_refl _)) ?_
    rcases clipRight_mem (trap.x - trap.width / 2) trap.y platforms
        (trap.x + trap.width / 2) with h | ⟨r, hr, hv, he⟩
    · rw [h]; exact hb.2.2.2.le
    · rw [he]
      by_cases hra : r.x < trap.x + trap.width / 2
      · exact hmin r hr ⟨hv.1, hv.2.1, hv.2.2, hra⟩
      · have h1 := clipRight_le (trap.x - trap.width / 2) trap.y platforms
          (trap.x + trap.width / 2)
        rw [he] at h1
        exact hb.2.2.2.le.trans (not_lt.mp hra)

/-- A concrete rotation-0 laser: origin `x = 600`, nominal length 400, so
the beam spans `[400, 800]` on the line `y = 300`. -/
def sampleLaser : Trap := ⟨600, 300, 400, 10, 0, false⟩

/-- The nearest blocking platform of the witness scene. -/
def blockerA : Rect := ⟨700, 280, 50, 100⟩

/-- A farther blocking platform of the witness scene. -/
def blockerB : Rect := ⟨750, 0, 50, 1000⟩

theorem C4_laserClipping_witness :
    sampleLaser.rotation % 360 = 0 ∧
    (((∀ p ∈ [blockerA, blockerB],
        ¬ (sampleLaser.y ≥ p.y ∧ sampleLaser.y ≤ p.y + p.height ∧
            p.x ≥ sampleLaser.x - sampleLaser.width / 2 ∧
            p.x < sampleLaser.x + sampleLaser.width / 2)) →
      (getLaserBounds sampleLaser [blockerA, blockerB]).endX
        = sampleLaser.x + sampleLaser.width / 2) ∧
    (∀ q ∈ [blockerA, blockerB],
      (sampleLaser.y ≥ q.y ∧ sampleLaser.y ≤ q.y + q.height ∧
        q.x ≥ sampleLaser.x - sampleLaser.width / 2 ∧
        q.x < sampleLaser.x + sampleLaser.width / 2) →
      (∀ p ∈ [blockerA, blockerB],
        (sampleLaser.y ≥ p.y ∧ sampleLaser.y ≤ p.y + p.height ∧
          p.x ≥ sampleLaser.x - sampleLaser.width / 2 ∧
          p.x < sampleLaser.x + sampleLaser.width / 2) → q.x ≤ p.x) →
      (getLaserBounds sampleLaser [blockerA, blockerB]).endX = q.x) ∧
    (getLaserBounds sampleLaser [blockerA, blockerB]).startX
      = sampleLaser.x - sampleLaser.width / 2 ∧
    (getLaserBounds sampleLaser [blockerA, blockerB]).startY = sampleLaser.y) :=
  ⟨rfl, C4_laserClipping sampleLaser [blockerA, blockerB] rfl⟩

/-! ## Trigger and dormancy system (source lines 3302-3314 and 3617-3645)

The host `setTimeout` queue is modelled explicitly: scheduling a binding
with positive delay appends a `PendingClear` entry; the event loop fires
every entry whose time has come before the next frame's update runs. -/

/-- One trigger binding: the index of the bound trap and the activation
delay in seconds. -/
structure Binding where
  trapIndex : ℕ
  delay : ℚ
  deriving DecidableEq

/-- A trigger volume with its bindings. -/
structure Trigger where
  x : ℚ
  y : ℚ
  width : ℚ
  height : ℚ
  oneShot : Bool
  triggered : Bool
  bindings : List Binding
  deriving DecidableEq

/-- A scheduled `setTimeout` callback: clear trap `trapIndex` at
`fireTime`. -/
structure PendingClear where
  fireTime : ℚ
  trapIndex : ℕ
  deriving DecidableEq

/-- The trigger-relevant game state: the traps and triggers of
`currentLevelData`, the host timer queue, and whether `state === 'play'`. -/
structure TriggerSystem where
  traps : List Trap
  triggers : List Trigger
  pending : List PendingClear
  statePlay : Bool
  deriving DecidableEq

/-- `trap.dormant = b` guarded by `if (trap)`: writing through an index that
is out of bounds is a no-op. -/
def setDormant : List Trap → ℕ → Bool → List Trap
  | [], _, _ => []
  | t :: ts, 0, b => { t with dormant := b } :: ts
  | t :: ts, n + 1, b => t :: setDormant ts n b

/-- The dormant flag of the trap at index `j` (`false` when out of
bounds). -/
def trapsDormant (traps : List Trap) (j : ℕ) : Bool :=
  match traps.get? j with
  | some t => t.dormant
  | none => false

/-- The dormancy reset of `Game.loadLevel` (source lines 3302-3314): every
trap wakes, then every trap referenced by some binding is put to sleep, and
every trigger is re-armed.  The host timer queue is not touched by a level
load (the source relies on the `state === 'play'` check inside the
callback instead of cancelling). -/
def initDormancy (ts : TriggerSystem) : TriggerSystem :=
  { ts with
    traps := ts.triggers.foldl
      (fun acc tr => tr.bindings.foldl (fun a2 b => setDormant a2 b.trapIndex true) acc)
      (ts.traps.map fun t => { t with dormant := false }),
    triggers := ts.triggers.map fun tr => { tr with triggered := false } }

/-- Processing one binding of a freshly entered trigger (source lines
3630-3641): a missing trap is skipped; a positive delay schedules a
deferred clear `delay` seconds from now; delay 0 clears immediately. -/
def bindingStep (now : ℚ) (st : List Trap × List PendingClear) (b : Binding) :
    List Trap × List PendingClear :=
  if b.trapIndex < st.1.length then
    if b.delay > 0 then (st.1, st.2 ++ [⟨now + b.delay, b.trapIndex⟩])
    else (setDormant st.1 b.trapIndex false, st.2)
  else st

/-- The trigger-detection pass of `Game.update` (source lines 3617-3645):
an already-fired one-shot trigger is skipped; otherwise a body overlapping
the trigger rectangle marks it `triggered` and processes its bindings. -/
def scanTriggers (now px py pw ph : ℚ) :
    List Trigger → List Trap → List PendingClear →
      List Trigger × List Trap × List PendingClear
  | [], traps, pending => ([], traps, pending)
  | tr :: rest, traps, pending =>
    if tr.triggered ∧ tr.oneShot then
      let r := scanTriggers now px py pw ph rest traps pending
      (tr :: r.1, r.2)
    else if px < tr.x + tr.width ∧ px + pw > tr.x ∧
        py < tr.y + tr.height ∧ py + ph > tr.y then
      let st := tr.bindings.foldl (bindingStep now) (traps, pending)
      let r := scanTriggers now px py pw ph rest st.1 st.2
      ({ tr with triggered := true } :: r.1, r.2)
    else
      let r := scanTriggers now px py pw ph rest traps pending
      (tr :: r.1, r.2)

/-- The host event loop firing every due `setTimeout` callback (source
lines 3634-3636): each due entry clears its trap only if the game is still
in the play state, and leaves the queue. -/
def fireDue (now : ℚ) (ts : TriggerSystem) : TriggerSystem :=
  { ts with
    traps := (ts.pending.filter fun e => decide (e.fireTime ≤ now)).foldl
      (fun acc e => if ts.statePlay then setDormant acc e.trapIndex false else acc)
      ts.traps,
    pending := ts.pending.filter fun e => !decide (e.fireTime ≤ now) }

/-- One host frame at wall-clock time `now` with the body at
`(px, py, pw, ph)`: due timer callbacks run first, then the frame's
trigger-detection pass. -/
def gameTick (now px py pw ph : ℚ) (ts : TriggerSystem) : TriggerSystem :=
  let ts1 := fireDue now ts
  let r := scanTriggers now px py pw ph ts1.triggers ts1.traps ts1.pending
  { ts1 with triggers := r.1, traps := r.2.1, pending := r.2.2 }

/-- A frame timestamp together with the body rectangle polled that frame. -/
structure Tick where
  time : ℚ
  px : ℚ
  py : ℚ
  pw : ℚ
  ph : ℚ
  deriving DecidableEq

/-- A sequence of host frames. -/
def runTicks (l : List Tick) (ts : TriggerSystem) : TriggerSystem :=
  l.foldl (fun s k => gameTick k.time k.px k.py k.pw k.ph s) ts

/-- Writing a trap flag in bounds is observable at that index. -/
theorem trapsDormant_setDormant_self (traps : List Trap) (k : ℕ) (b : Bool)
    (hk : k < traps.length) : trapsDormant (setDormant traps k b) k = b := by
  induction traps generalizing k with
  | nil => cases hk
  | cons t ts ih =>
    cases k with
    | zero => rfl
    | succ n => exact ih n (Nat.lt_of_succ_lt_succ hk)

/-- Clearing a trap flag leaves it observed clear, in or out of bounds. -/
theorem trapsDormant_setDormant_false (traps : List Trap) (k : ℕ) :
    trapsDormant (setDormant traps k false) k = false := by
  induction traps generalizing k with
  | nil => cases k <;> rfl
  | cons t ts ih =>
    cases k with
    | zero => rfl
    | succ n => exact ih n

/-- Writing one trap flag does not touch the others. -/
theorem trapsDormant_setDormant_other (traps : List Trap) (k j : ℕ) (b : Bool)
    (h : j ≠ k) : trapsDormant (setDormant traps k b) j = trapsDormant traps j := by
  induction traps generalizing k j with
  | nil => rfl
  | cons t ts ih =>
    cases k with
    | zero =>
      cases j with
      | zero => exact absurd rfl h
      | succ m => rfl
    | succ n =>
      cases j with
      | zero => rfl
      | succ m => exact ih n m (fun hh => h (by rw [hh]))

/-- A cleared flag stays cleared under any further clear. -/
theorem setDormantFalse_mono (traps : List Trap) (k j : ℕ)
    (h : trapsDormant traps j = false) :
    trapsDormant (setDormant traps k false) j = false := by
  by_cases hj : j = k
  · subst hj
    exact trapsDormant_setDormant_false traps j
  · rw [trapsDormant_setDormant_other traps k j false hj]
    exact h

/-- A binding step never puts any trap to sleep. -/
theorem bindingStep_mono (now : ℚ) (st : List Trap × List PendingClear)
    (b : Binding) (j : ℕ) (h : trapsDormant st.1 j = false) :
    trapsDormant (bindingStep now st b).1 j = false := by
  simp only [bindingStep]
  repeat' split
  · exact h
  · exact setDormantFalse_mono st.1 b.trapIndex j h
  · exact h

/-- Folding binding steps never puts any trap to sleep. -/
theorem bindingsFold_mono (now : ℚ) (j : ℕ) :
    ∀ (bs : List Binding) (st : List Trap × List PendingClear),
      trapsDormant st.1 j = false →
      trapsDormant (bs.foldl (bindingStep now) st).1 j = false
  | [], _, h => h
  | b :: bs, st, h =>
    bindingsFold_mono now j bs (bindingStep now st b) (bindingStep_mono now st b j h)

/-- The whole trigger-detection pass never puts any trap to sleep. -/
theorem scanTriggers_mono (now px py pw ph : ℚ) (j : ℕ) :
    ∀ (trs : List Trigger) (traps : List Trap) (pending : List PendingClear),
      trapsDormant traps j = false →
      trapsDormant (scanTriggers now px py pw ph trs traps pending).2.1 j = false := by
  intro trs
  induction trs with
  | nil => intro traps pending h; exact h
  | cons tr rest ih =>
    intro traps pending h
    simp only [scanTriggers]
    repeat' split
    · exact ih traps pending h
    · exact ih _ _ (bindingsFold_mono now j tr.bindings (traps, pending) h)
    · exact ih traps pending h

/-- The timer-callback fold never puts any trap to sleep. -/
theorem fireFold_mono (play : Bool) (j : ℕ) :
    ∀ (es : List PendingClear) (traps : List Trap),
      trapsDormant traps j = false →
      trapsDormant (es.foldl
        (fun acc e => if play then setDormant acc e.trapIndex false else acc) traps) j
        = false
  | [], _, h => h
  | e :: es, traps, h => by
    rw [List.foldl_cons]
    refine fireFold_mono play j es _ ?_
    split
    · exact setDormantFalse_mono traps e.trapIndex j h
    · exact h

/-- If some due entry points at trap `j` and the game is playing, the
timer-callback fold clears trap `j`. -/
theorem fireFold_clears (j : ℕ) :
    ∀ (es : List PendingClear) (traps : List Trap),
      (∃ e ∈ es, e.trapIndex = j) →
      trapsDormant (es.foldl
        (fun acc e => if true then setDormant acc e.trapIndex false else acc) traps) j
        = false
  | [], _, h => absurd h (by simp)
  | e :: es, traps, ⟨f, hf, hj⟩ => by
    rw [List.foldl_cons]
    rcases List.mem_cons.mp hf with heq | hmem
    · subst heq
      refine fireFold_mono true j es _ ?_
      rw [if_pos rfl]
      subst hj
      exact trapsDormant_setDormant_false traps f.trapIndex
    · exact fireFold_clears j es _ ⟨f, hmem, hj⟩

/-- A trap observed awake stays awake through a whole frame. -/
theorem gameTick_mono (now px py pw ph : ℚ) (ts : TriggerSystem) (j : ℕ)
    (h : trapsDormant ts.traps j = false) :
    trapsDormant (gameTick now px py pw ph ts).traps j = false := by
  simp only [gameTick]
  exact scanTriggers_mono now px py pw ph j _ _ _
    (fireFold_mono ts.statePlay j _ ts.traps h)

/-- A trap observed awake stays awake through any further frames. -/
theorem runTicks_mono (j : ℕ) :
    ∀ (l : List Tick) (ts : TriggerSystem),
      trapsDormant ts.traps j = false →
      trapsDormant (runTicks l ts).traps j = false
  | [], _, h => h
  | k :: l, ts, h =>
    runTicks_mono j l _ (gameTick_mono k.time k.px k.py k.pw k.ph ts j h)

/-- Writing a trap flag does not change how many traps there are. -/
theorem setDormant_length (traps : List Trap) (k : ℕ) (b : Bool) :
    (setDormant traps k b).length = traps.length := by
  induction traps generalizing k with
  | nil => rfl
  | cons t ts ih =>
    cases k with
    | zero => rfl
    | succ n => exact congrArg Nat.succ (ih n)

/-- With no due entry, the event loop changes nothing. -/
theorem fireDue_noop (now : ℚ) (ts : TriggerSystem)
    (h : ∀ e ∈ ts.pending, ¬ e.fireTime ≤ now) :
    fireDue now ts = ts := by
  have hnil : ts.pending.filter (fun e => decide (e.fireTime ≤ now)) = [] := by
    rw [List.filter_eq_nil_iff]
    intro e he
    simp [h e he]
  have hall : ts.pending.filter (fun e => !decide (e.fireTime ≤ now)) = ts.pending := by
    rw [List.filter_eq_self]
    intro e he
    simp [h e he]
  simp only [fireDue, hnil, hall, List.foldl_nil]

/-- When every trigger's bindings are the single delayed binding
`⟨i, d⟩` with `d > 0`, the detection pass leaves the traps untouched, only
appends `⟨now + d, i⟩`-entries to the queue, drops no queue entry, and
preserves every trigger's bindings. -/
theorem scanTriggers_safe (now px py pw ph : ℚ) (i : ℕ) (d : ℚ) (hd : 0 < d) :
    ∀ (trs : List Trigger) (traps : List Trap) (pending : List PendingClear),
      (∀ tr ∈ trs, tr.bindings = [⟨i, d⟩]) →
      (scanTriggers now px py pw ph trs traps pending).2.1 = traps ∧
      (∀ e ∈ (scanTriggers now px py pw ph trs traps pending).2.2,
        e ∈ pending ∨ e = ⟨now + d, i⟩) ∧
      (∀ e ∈ pending, e ∈ (scanTriggers now px py pw ph trs traps pending).2.2) ∧
      (∀ tr ∈ (scanTriggers now px py pw ph trs traps pending).1,
        tr.bindings = [⟨i, d⟩]) := by
  intro trs
  induction trs with
  | nil =>
    intro traps pending _
    exact ⟨rfl, fun e he => Or.inl he, fun e he => he,
      fun tr htr => absurd htr (List.not_mem_nil tr)⟩
  | cons tr rest ih =>
    intro traps pending h
    have hbind := h tr (List.mem_cons_self tr rest)
    have hrest : ∀ t ∈ rest, t.bindings = [⟨i, d⟩] :=
      fun t ht => h t (List.mem_cons_of_mem tr ht)
    have hst : (tr.bindings.foldl (bindingStep now) (traps, pending)).1 = traps ∧
        (∀ e ∈ (tr.bindings.foldl (bindingStep now) (traps, pending)).2,
          e ∈ pending ∨ e = ⟨now + d, i⟩) ∧
        (∀ e ∈ pending, e ∈ (tr.bindings.foldl (bindingStep now) (traps, pending)).2) := by
      rw [hbind]
      simp only [List.foldl_cons, List.foldl_nil, bindingStep]
      split
      · refine ⟨rfl, fun e he => ?_, fun e he => List.mem_append_left _ he⟩
        rcases List.mem_append.mp he with h1 | h2
        · exact Or.inl h1
        · exact Or.inr (List.mem_singleton.mp h2)
      · exact ⟨rfl, fun e he => Or.inl he, fun e he => he⟩
    simp only [scanTriggers]
    split
    · obtain ⟨e1, e2, e3, e4⟩ := ih traps pending hrest
      refine ⟨e1, e2, e3, fun t ht => ?_⟩
      rcases List.mem_cons.mp ht with heq | hmem
      · rw [heq]; exact hbind
      · exact e4 t hmem
    · split
      · obtain ⟨e1, e2, e3, e4⟩ :=
          ih (tr.bindings.foldl (bindingStep now) (traps, pending)).1
            (tr.bindings.foldl (bindingStep now) (traps, pending)).2 hrest
        refine ⟨e1.trans hst.1, fun e he => ?_, fun e he => e3 e (hst.2.2 e he),
          fun t ht => ?_⟩
        · rcases e2 e he with h1 | h2
          · exact hst.2.1 e h1
          · exact Or.inr h2
        · rcases List.mem_cons.mp ht with heq | hmem
          · rw [heq]; exact hbind
          · exact e4 t hmem
      · obtain ⟨e1, e2, e3, e4⟩ := ih traps pending hrest
        refine ⟨e1, e2, e3, fun t ht => ?_⟩
        rcases List.mem_cons.mp ht with heq | hmem
        · rw [heq]; exact hbind
        · exact e4 t hmem

/-- A single freshly armed trigger that the body overlaps schedules the
delayed clear and leaves the traps untouched. -/
theorem scanTriggers_overlap (now px py pw ph : ℚ) (tr0 : Trigger) (i : ℕ) (d : ℚ)
    (hd : 0 < d) (hbind : tr0.bindings = [⟨i, d⟩])
    (hno : tr0.triggered = false ∨ tr0.oneShot = false)
    (hov : px < tr0.x + tr0.width ∧ px + pw > tr0.x ∧
      py < tr0.y + tr0.height ∧ py + ph > tr0.y)
    (traps : List Trap) (pending : List PendingClear) (hi : i < traps.length) :
    (scanTriggers now px py pw ph [tr0] traps pending).2.1 = traps ∧
    (scanTriggers now px py pw ph [tr0] traps pending).2.2
      = pending ++ [⟨now + d, i⟩] := by
  have hskip : ¬ (tr0.triggered = true ∧ tr0.oneShot = true) := by
    rcases hno with h | h <;> simp [h]
  simp only [scanTriggers, hbind, List.foldl_cons, List.foldl_nil, bindingStep]
  rw [if_neg hskip, if_pos hov, if_pos hi, if_pos hd]
  exact ⟨rfl, rfl⟩

/-- The invariant that carries a scheduled delayed activation through the
frames before its fire time. -/
@[reducible]
def C3Inv (i : ℕ) (d t0 : ℚ) (ts : TriggerSystem) : Prop :=
  trapsDormant ts.traps i = true ∧
  (∀ e ∈ ts.pending, t0 + d ≤ e.fireTime) ∧
  (⟨t0 + d, i⟩ : PendingClear) ∈ ts.pending ∧
  (∀ tr ∈ ts.triggers, tr.bindings = [⟨i, d⟩]) ∧
  ts.statePlay = true

theorem gameTick_preserves_inv (i : ℕ) (d t0 : ℚ) (hd : 0 < d) (k : Tick)
    (hka : t0 ≤ k.time) (hkb : k.time < t0 + d) (ts : TriggerSystem)
    (h : C3Inv i d t0 ts) :
    C3Inv i d t0 (gameTick k.time k.px k.py k.pw k.ph ts) := by
  obtain ⟨h1, h2, h3, h4, h5⟩ := h
  have hnof : ∀ e ∈ ts.pending, ¬ e.fireTime ≤ k.time := fun e he =>
    not_le.mpr (lt_of_lt_of_le hkb (h2 e he))
  obtain ⟨e1, e2, e3, e4⟩ := scanTriggers_safe k.time k.px k.py k.pw k.ph i d hd
    ts.triggers ts.traps ts.pending h4
  simp only [gameTick, fireDue_noop k.time ts hnof]
  refine ⟨(congrArg (fun l => trapsDormant l i) e1).trans h1, fun e he => ?_,
    e3 _ h3, e4, h5⟩
  rcases e2 e he with hold | hnew
  · exact h2 e hold
  · rw [hnew]
    show t0 + d ≤ k.time + d
    linarith

theorem runTicks_preserves_inv (i : ℕ) (d t0 : ℚ) (hd : 0 < d) :
    ∀ L : List Tick, (∀ k ∈ L, t0 ≤ k.time ∧ k.time < t0 + d) →
      ∀ ts, C3Inv i d t0 ts → C3Inv i d t0 (runTicks L ts)
  | [], _, _, h => h
  | k :: L, hL, ts, h =>
    runTicks_preserves_inv i d t0 hd L
      (fun j hj => hL j (List.mem_cons_of_mem k hj)) _
      (gameTick_preserves_inv i d t0 hd k (hL k (List.mem_cons_self k L)).1
        (hL k (List.mem_cons_self k L)).2 ts h)

/-- A due entry pointing at trap `i` guarantees the frame clears it. -/
theorem gameTick_clears (now px py pw ph : ℚ) (ts : TriggerSystem) (i : ℕ)
    (x : PendingClear) (hx : x ∈ ts.pending) (hxi : x.trapIndex = i)
    (hxt : x.fireTime ≤ now) (hplay : ts.statePlay = true) :
    trapsDormant (gameTick now px py pw ph ts).traps i = false := by
  simp only [gameTick, fireDue]
  apply scanTriggers_mono
  simp only [hplay]
  apply fireFold_clears
  exact ⟨x, List.mem_filter.mpr ⟨hx, by simp [hxt]⟩, hxi⟩

/-- C3: a hazard referenced only by a single trigger binding with positive
delay `d` starts dormant at level load; once the body first overlaps the
trigger volume at time `t0`, the hazard is still dormant after that frame
and after every frame strictly before `t0 + d` — including frames where the
body has left the trigger volume — and the first frame at or after
`t0 + d` clears the dormant flag, which then stays cleared through any
further frames. -/
theorem C3_delayedActivation (tr0 : Trigger) (traps0 : List Trap) (i : ℕ) (d t0 : ℚ)
    (k0 k1 : Tick) (L M : List Tick)
    (hd : 0 < d)
    (hbind : tr0.bindings = [⟨i, d⟩])
    (hi : i < traps0.length)
    (hk0 : k0.time = t0)
    (hov : k0.px < tr0.x + tr0.width ∧ k0.px + k0.pw > tr0.x ∧
      k0.py < tr0.y + tr0.height ∧ k0.py + k0.ph > tr0.y)
    (hL : ∀ k ∈ L, t0 ≤ k.time ∧ k.time < t0 + d)
    (hk1 : t0 + d ≤ k1.time) :
    trapsDormant (initDormancy ⟨traps0, [tr0], [], true⟩).traps i = true ∧
    trapsDormant (gameTick k0.time k0.px k0.py k0.pw k0.ph
      (initDormancy ⟨traps0, [tr0], [], true⟩)).traps i = true ∧
    trapsDormant (runTicks L (gameTick k0.time k0.px k0.py k0.pw k0.ph
      (initDormancy ⟨traps0, [tr0], [], true⟩))).traps i = true ∧
    trapsDormant (gameTick k1.time k1.px k1.py k1.pw k1.ph (runTicks L
      (gameTick k0.time k0.px k0.py k0.pw k0.ph
        (initDormancy ⟨traps0, [tr0], [], true⟩)))).traps i = false ∧
    trapsDormant (runTicks M (gameTick k1.time k1.px k1.py k1.pw k1.ph (runTicks L
      (gameTick k0.time k0.px k0.py k0.pw k0.ph
        (initDormancy ⟨traps0, [tr0], [], true⟩))))).traps i = false := by
  have hlen : i < (traps0.map fun t => { t with dormant := false }).length := by
    rw [List.length_map]
    exact hi
  have hinit : initDormancy ⟨traps0, [tr0], [], true⟩ =
      ⟨setDormant (traps0.map fun t => { t with dormant := false }) i true,
        [{ tr0 with triggered := false }], [], true⟩ := by
    simp only [initDormancy, List.foldl_cons, List.foldl_nil, hbind,
      List.map_cons, List.map_nil]
  have hd1 : trapsDormant (initDormancy ⟨traps0, [tr0], [], true⟩).traps i = true := by
    rw [hinit]
    exact trapsDormant_setDormant_self _ i true hlen
  have hbind' : ({ tr0 with triggered := false } : Trigger).bindings = [⟨i, d⟩] := hbind
  have hlen' :
      i < (setDormant (traps0.map fun t => { t with dormant := false }) i true).length := by
    rw [setDormant_length]
    exact hlen
  obtain ⟨hs1, hs2⟩ := scanTriggers_overlap k0.time k0.px k0.py k0.pw k0.ph
    { tr0 with triggered := false } i d hd hbind' (Or.inl rfl) hov
    (setDormant (traps0.map fun t => { t with dormant := false }) i true) [] hlen'
  obtain ⟨_, _, _, hsafe4⟩ := scanTriggers_safe k0.time k0.px k0.py k0.pw k0.ph i d hd
    [{ tr0 with triggered := false }]
    (setDormant (traps0.map fun t => { t with dormant := false }) i true) []
    (by
      intro tr htr
      rw [List.mem_singleton.mp htr]
      exact hbind')
  have hinitT : (initDormancy ⟨traps0, [tr0], [], true⟩).traps
      = setDormant (traps0.map fun t => { t with dormant := false }) i true := by
    rw [hinit]
  have hinitG : (initDormancy ⟨traps0, [tr0], [], true⟩).triggers
      = [{ tr0 with triggered := false }] := by
    rw [hinit]
  have hinitP : (initDormancy ⟨traps0, [tr0], [], true⟩).pending = [] := by
    rw [hinit]
  have hinitS : (initDormancy ⟨traps0, [tr0], [], true⟩).statePlay = true := by
    rw [hinit]
  have hfire : fireDue k0.time (initDormancy ⟨traps0, [tr0], [], true⟩)
      = initDormancy ⟨traps0, [tr0], [], true⟩ := by
    refine fireDue_noop _ _ ?_
    rw [hinitP]
    exact fun e he => absurd he (List.not_mem_nil e)
  set ts1 := gameTick k0.time k0.px k0.py k0.pw k0.ph
    (initDormancy ⟨traps0, [tr0], [], true⟩) with hts1
  have hts1e : ts1 =
      ⟨setDormant (traps0.map fun t => { t with dormant := false }) i true,
        (scanTriggers k0.time k0.px k0.py k0.pw k0.ph
          [{ tr0 with triggered := false }]
          (setDormant (traps0.map fun t => { t with dormant := false }) i true) []).1,
        [] ++ [⟨k0.time + d, i⟩], true⟩ := by
    rw [hts1]
    simp only [gameTick]
    rw [hfire, hinitG, hinitT, hinitP, hs1, hs2, hinitS]
  have hInv1 : C3Inv i d t0 ts1 := by
    rw [hts1e]
    refine ⟨trapsDormant_setDormant_self _ i true hlen, ?_, ?_, hsafe4, rfl⟩
    · intro e he
      have he2 : e ∈ [({ fireTime := k0.time + d, trapIndex := i } : PendingClear)] := by
        simpa using he
      rw [List.mem_singleton.mp he2, hk0]
    · rw [hk0]
      exact List.mem_append_right _ (List.mem_singleton.mpr rfl)
  have hInv2 := runTicks_preserves_inv i d t0 hd L hL ts1 hInv1
  have hc4 : trapsDormant (gameTick k1.time k1.px k1.py k1.pw k1.ph
      (runTicks L ts1)).traps i = false :=
    gameTick_clears k1.time k1.px k1.py k1.pw k1.ph (runTicks L ts1) i ⟨t0 + d, i⟩
      hInv2.2.2.1 rfl hk1 hInv2.2.2.2.2
  exact ⟨hd1, hInv1.1, hInv2.1, hc4,
    runTicks_mono i M (gameTick k1.time k1.px k1.py k1.pw k1.ph (runTicks L ts1)) hc4⟩

/-- A concrete trap for the trigger scenario. -/
def sampleTrap : Trap := ⟨0, 0, 10, 10, 0, false⟩

/-- A one-shot trigger binding `sampleTrap` (index 0) with a 2 s delay. -/
def sampleTrigger : Trigger := ⟨0, 0, 50, 50, true, false, [⟨0, 2⟩]⟩

/-- The frame where the body enters the trigger volume, at time 0. -/
def tick0 : Tick := ⟨0, 10, 10, 30, 30⟩

/-- A frame at time 1 with the body far away from the trigger volume. -/
def tickMid : Tick := ⟨1, 500, 500, 30, 30⟩

/-- A frame at time 2, when the 2 s delay has elapsed. -/
def tickFire : Tick := ⟨2, 500, 500, 30, 30⟩

/-- A frame at time 3. -/
def tickAfter : Tick := ⟨3, 500, 500, 30, 30⟩

theorem C3_delayedActivation_witness :
    (0 < (2:ℚ)) ∧ sampleTrigger.bindings = [⟨0, 2⟩] ∧ 0 < [sampleTrap].length ∧
    tick0.time = 0 ∧
    (tick0.px < sampleTrigger.x + sampleTrigger.width ∧
      tick0.px + tick0.pw > sampleTrigger.x ∧
      tick0.py < sampleTrigger.y + sampleTrigger.height ∧
      tick0.py + tick0.ph > sampleTrigger.y) ∧
    (∀ k ∈ [tickMid], (0:ℚ) ≤ k.time ∧ k.time < 0 + 2) ∧
    ((0:ℚ) + 2 ≤ tickFire.time) ∧
    (trapsDormant (initDormancy ⟨[sampleTrap], [sampleTrigger], [], true⟩).traps 0 = true ∧
    trapsDormant (gameTick tick0.time tick0.px tick0.py tick0.pw tick0.ph
      (initDormancy ⟨[sampleTrap], [sampleTrigger], [], true⟩)).traps 0 = true ∧
    trapsDormant (runTicks [tickMid] (gameTick tick0.time tick0.px tick0.py tick0.pw tick0.ph
      (initDormancy ⟨[sampleTrap], [sampleTrigger], [], true⟩))).traps 0 = true ∧
    trapsDormant (gameTick tickFire.time tickFire.px tickFire.py tickFire.pw tickFire.ph
      (runTicks [tickMid] (gameTick tick0.time tick0.px tick0.py tick0.pw tick0.ph
        (initDormancy ⟨[sampleTrap], [sampleTrigger], [], true⟩)))).traps 0 = false ∧
    trapsDormant (runTicks [tickAfter] (gameTick tickFire.time tickFire.px tickFire.py
      tickFire.pw tickFire.ph (runTicks [tickMid] (gameTick tick0.time tick0.px tick0.py
        tick0.pw tick0.ph (initDormancy ⟨[sampleTrap], [sampleTrigger], [],
        true⟩))))).traps 0 = false) :=
  ⟨by norm_num, rfl, by norm_num, rfl,
    by norm_num [tick0, sampleTrigger],
    by
      intro k hk
      rw [List.mem_singleton.mp hk]
      norm_num [tickMid],
    by norm_num [tickFire],
    C3_delayedActivation sampleTrigger [sampleTrap] 0 2 0 tick0 tickFire [tickMid]
      [tickAfter] (by norm_num) rfl (by norm_num) rfl
      (by norm_num [tick0, sampleTrigger])
      (by
        intro k hk
        rw [List.mem_singleton.mp hk]
        norm_num [tickMid])
      (by norm_num [tickFire])⟩

/-! ## Scripted-motion scheduler (`applyMovement`, source lines 3656-3765)

The source uses `Math.hypot`, `Math.sin` and `Math.cos`, so this part of
the embedding lives over `ℝ`. -/

/-- JS `v || d` on an optional real field. -/
noncomputable def jsOrR (v : Option ℝ) (d : ℝ) : ℝ :=
  match v with
  | none => d
  | some x => if x = 0 then d else x

/-- A platform rectangle with real coordinates. -/
structure RectR where
  x : ℝ
  y : ℝ
  width : ℝ
  height : ℝ

/-- The body as the passenger-carry step reads and writes it. -/
structure PlayerPos where
  x : ℝ
  y : ℝ
  width : ℝ
  height : ℝ
  vy : ℝ

/-- A scripted object (platform or hazard) with its motion-script fields;
the derived runtime fields are `none` until first initialised by the
scheduler. -/
structure MovingObject where
  x : ℝ
  y : ℝ
  width : ℝ
  height : ℝ
  scale : Option ℝ
  speed : ℝ
  tx : ℝ
  ty : ℝ
  oscX : ℝ
  oscY : ℝ
  oscSpeed : ℝ
  baseX : Option ℝ
  baseY : Option ℝ
  startX : Option ℝ
  startY : Option ℝ
  movingForward : Option Bool
  oscTime : Option ℝ

/-- The hazard-vs-platform prospective AABB test (source lines 3699-3714):
the hazard's scaled box centred at the displaced position against every
platform (the source breaks at the first hit; the result is the same). -/
def willCollide (platforms : List RectR) (futureX futureY sw sh : ℝ) : Prop :=
  ∃ p ∈ platforms,
    futureX - sw / 2 < p.x + p.width ∧ futureX + sw / 2 > p.x ∧
    futureY - sh / 2 < p.y + p.height ∧ futureY + sh / 2 > p.y

/-- The outcome of the linear ping-pong step (source lines 3663-3726):
the displacement committed this tick and the updated runtime fields. -/
structure PingPongResult where
  deltaX : ℝ
  deltaY : ℝ
  baseX : ℝ
  baseY : ℝ
  startX : Option ℝ
  startY : Option ℝ
  movingForward : Option Bool

open Classical in
/-- The linear A-to-B movement block (source lines 3663-3726), given the
already-initialised base coordinates. -/
noncomputable def pingPongStep (platforms : List RectR) (dt : ℝ) (isPlatform : Bool)
    (obj : MovingObject) (baseX0 baseY0 : ℝ) : PingPongResult :=
  if obj.speed > 0 ∧ (obj.tx ≠ 0 ∨ obj.ty ≠ 0) then
    let startX := obj.startX.getD baseX0
    let startY := obj.startY.getD baseY0
    let fwd := obj.movingForward.getD true
    let targetX := if fwd then startX + obj.tx else startX
    let targetY := if fwd then startY + obj.ty else startY
    let dx := targetX - baseX0
    let dy := targetY - baseY0
    let dist := Real.sqrt (dx ^ 2 + dy ^ 2)
    let moveStep := obj.speed * dt
    if dist ≤ moveStep then
      ⟨dx, dy, targetX, targetY, some startX, some startY, some (!fwd)⟩
    else
      let deltaX := dx / dist * moveStep
      let deltaY := dy / dist * moveStep
      if isPlatform = false ∧
          willCollide platforms (baseX0 + deltaX) (baseY0 + deltaY)
            (obj.width * jsOrR obj.scale 1) (obj.height * jsOrR obj.scale 1) then
        ⟨0, 0, baseX0, baseY0, some startX, some startY, some (!fwd)⟩
      else
        ⟨deltaX, deltaY, baseX0 + deltaX, baseY0 + deltaY,
          some startX, some startY, some fwd⟩
  else ⟨0, 0, baseX0, baseY0, obj.startX, obj.startY, obj.movingForward⟩

open Classical in
/-- The oscillation block (source lines 3728-3736): the sinusoidal offsets
and the advanced oscillation clock. -/
noncomputable def oscStep (dt : ℝ) (obj : MovingObject) : ℝ × ℝ × Option ℝ :=
  if obj.oscSpeed > 0 ∧ (obj.oscX ≠ 0 ∨ obj.oscY ≠ 0) then
    let t := obj.oscTime.getD 0 + dt * obj.oscSpeed
    (Real.sin t * obj.oscX, Real.cos t * obj.oscY, some t)
  else (0, 0, obj.oscTime)

open Classical in
/-- `applyMovement(obj, isPlatform)` (source lines 3656-3756): early return
for unscripted objects, base initialisation, the linear ping-pong step, the
oscillation offset added on top of the base, and the passenger carry for
platforms. -/
noncomputable def applyMovement (platforms : List RectR) (player : PlayerPos)
    (dt : ℝ) (isPlatform : Bool) (obj : MovingObject) : MovingObject × PlayerPos :=
  if obj.speed = 0 ∧ obj.oscSpeed = 0 then (obj, player)
  else
    let baseX0 := obj.baseX.getD obj.x
    let baseY0 := obj.baseY.getD obj.y
    let lin := pingPongStep platforms dt isPlatform obj baseX0 baseY0
    let osc := oscStep dt obj
    let newX := lin.baseX + osc.1
    let newY := lin.baseY + osc.2.1
    let obj2 : MovingObject :=
      { obj with
        x := newX, y := newY,
        baseX := some lin.baseX, baseY := some lin.baseY,
        startX := lin.startX, startY := lin.startY,
        movingForward := lin.movingForward, oscTime := osc.2.2 }
    let player2 :=
      if isPlatform = true ∧ player.vy ≥ 0 ∧
          player.x + player.width > newX ∧ player.x < newX + obj.width ∧
          |player.y + player.height - newY| < 15 then
        { player with x := player.x + (newX - obj.x), y := player.y + (newY - obj.y) }
      else player
    (obj2, player2)

/-- The per-trap call site (source lines 3761-3765): dormant hazards are
not moved at all. -/
noncomputable def moveTrap (platforms : List RectR) (player : PlayerPos) (dt : ℝ)
    (dormant : Bool) (obj : MovingObject) : MovingObject × PlayerPos :=
  if dormant then (obj, player) else applyMovement platforms player dt false obj

/-- `Math.hypot` of a scaled vector factors the scale out. -/
theorem hypot_smul (c tx ty : ℝ) :
    Real.sqrt ((c * tx) ^ 2 + (c * ty) ^ 2) = |c| * Real.sqrt (tx ^ 2 + ty ^ 2) := by
  rw [show (c * tx) ^ 2 + (c * ty) ^ 2 = c ^ 2 * (tx ^ 2 + ty ^ 2) by ring,
    Real.sqrt_mul (sq_nonneg c), Real.sqrt_sq_eq_abs]

/-- A nonzero translation target gives the segment positive length. -/
theorem segLen_pos (tx ty : ℝ) (h : ¬ (tx = 0 ∧ ty = 0)) :
    0 < Real.sqrt (tx ^ 2 + ty ^ 2) := by
  apply Real.sqrt_pos.mpr
  rcases not_and_or.mp h with h | h
  · have h1 : 0 < tx ^ 2 := by positivity
    nlinarith [sq_nonneg ty]
  · have h1 : 0 < ty ^ 2 := by positivity
    nlinarith [sq_nonneg tx]

section MotionScheduler

open Classical

/-- The scheduler's result fields in terms of the linear step and the
oscillation offset, once the base coordinates are initialised and the
object is scripted. -/
theorem applyMovement_fields (platforms : List RectR) (player : PlayerPos) (dt : ℝ)
    (isPlatform : Bool) (obj : MovingObject) (bx by' : ℝ)
    (hbx : obj.baseX = some bx) (hby : obj.baseY = some by')
    (hspeed : 0 < obj.speed) :
    (applyMovement platforms player dt isPlatform obj).1.baseX
      = some (pingPongStep platforms dt isPlatform obj bx by').baseX ∧
    (applyMovement platforms player dt isPlatform obj).1.baseY
      = some (pingPongStep platforms dt isPlatform obj bx by').baseY ∧
    (applyMovement platforms player dt isPlatform obj).1.movingForward
      = (pingPongStep platforms dt isPlatform obj bx by').movingForward ∧
    (applyMovement platforms player dt isPlatform obj).1.x
      = (pingPongStep platforms dt isPlatform obj bx by').baseX + (oscStep dt obj).1 ∧
    (applyMovement platforms player dt isPlatform obj).1.y
      = (pingPongStep platforms dt isPlatform obj bx by').baseY + (oscStep dt obj).2.1 := by
  have houter : ¬ (obj.speed = 0 ∧ obj.oscSpeed = 0) :=
    fun hc => absurd hc.1 (ne_of_gt hspeed)
  simp only [applyMovement, hbx, hby, Option.getD_some]
  rw [if_neg houter]
  exact ⟨rfl, rfl, rfl, rfl, rfl⟩

/-- The linear step when the remaining distance fits in this tick's step:
the base snaps exactly onto the current target and the direction flips. -/
theorem pingPongStep_snap (platforms : List RectR) (dt : ℝ) (isPlatform : Bool)
    (obj : MovingObject) (bx by' sx sy targetX targetY : ℝ) (fwd : Bool)
    (hsx : obj.startX = some sx) (hsy : obj.startY = some sy)
    (hfwd : obj.movingForward = some fwd)
    (hspeed : 0 < obj.speed)
    (htxy : ¬ (obj.tx = 0 ∧ obj.ty = 0))
    (htX : targetX = if fwd then sx + obj.tx else sx)
    (htY : targetY = if fwd then sy + obj.ty else sy)
    (hsnap : Real.sqrt ((targetX - bx) ^ 2 + (targetY - by') ^ 2) ≤ obj.speed * dt) :
    pingPongStep platforms dt isPlatform obj bx by'
      = ⟨targetX - bx, targetY - by', targetX, targetY,
          some sx, some sy, some (!fwd)⟩ := by
  have hcond : obj.speed > 0 ∧ (obj.tx ≠ 0 ∨ obj.ty ≠ 0) := ⟨hspeed, not_and_or.mp htxy⟩
  simp only [pingPongStep, hsx, hsy, hfwd, Option.getD_some]
  rw [if_pos hcond, ← htX, ← htY, if_pos hsnap]

/-- The linear step when the target is farther than this tick's step and no
hazard collision cancels it: the base advances by `speed * dt` along the
segment and the direction is kept. -/
theorem pingPongStep_advance (platforms : List RectR) (dt : ℝ) (isPlatform : Bool)
    (obj : MovingObject) (bx by' sx sy targetX targetY : ℝ) (fwd : Bool)
    (hsx : obj.startX = some sx) (hsy : obj.startY = some sy)
    (hfwd : obj.movingForward = some fwd)
    (hspeed : 0 < obj.speed)
    (htxy : ¬ (obj.tx = 0 ∧ obj.ty = 0))
    (htX : targetX = if fwd then sx + obj.tx else sx)
    (htY : targetY = if fwd then sy + obj.ty else sy)
    (hns : obj.speed * dt < Real.sqrt ((targetX - bx) ^ 2 + (targetY - by') ^ 2))
    (hfree : isPlatform = true ∨
      ¬ willCollide platforms
        (bx + (targetX - bx) / Real.sqrt ((targetX - bx) ^ 2 + (targetY - by') ^ 2)
          * (obj.speed * dt))
        (by' + (targetY - by') / Real.sqrt ((targetX - bx) ^ 2 + (targetY - by') ^ 2)
          * (obj.speed * dt))
        (obj.width * jsOrR obj.scale 1) (obj.height * jsOrR obj.scale 1)) :
    pingPongStep platforms dt isPlatform obj bx by'
      = ⟨(targetX - bx) / Real.sqrt ((targetX - bx) ^ 2 + (targetY - by') ^ 2)
            * (obj.speed * dt),
          (targetY - by') / Real.sqrt ((targetX - bx) ^ 2 + (targetY - by') ^ 2)
            * (obj.speed * dt),
          bx + (targetX - bx) / Real.sqrt ((targetX - bx) ^ 2 + (targetY - by') ^ 2)
            * (obj.speed * dt),
          by' + (targetY - by') / Real.sqrt ((targetX - bx) ^ 2 + (targetY - by') ^ 2)
            * (obj.speed * dt),
          some sx, some sy, some fwd⟩ := by
  have hcond : obj.speed > 0 ∧ (obj.tx ≠ 0 ∨ obj.ty ≠ 0) := ⟨hspeed, not_and_or.mp htxy⟩
  simp only [pingPongStep, hsx, hsy, hfwd, Option.getD_some]
  rw [if_pos hcond, ← htX, ← htY, if_neg (not_le.mpr hns)]
  rw [if_neg (fun hc => by
    rcases hfree with hp | hnc
    · rw [hp] at hc
      exact absurd hc.1 (by simp)
    · exact hnc hc.2)]

/-- The linear step for a hazard whose prospective box overlaps a platform:
the displacement is cancelled and the direction flips this very tick. -/
theorem pingPongStep_blocked (platforms : List RectR) (dt : ℝ)
    (obj : MovingObject) (bx by' sx sy targetX targetY : ℝ) (fwd : Bool)
    (hsx : obj.startX = some sx) (hsy : obj.startY = some sy)
    (hfwd : obj.movingForward = some fwd)
    (hspeed : 0 < obj.speed)
    (htxy : ¬ (obj.tx = 0 ∧ obj.ty = 0))
    (htX : targetX = if fwd then sx + obj.tx else sx)
    (htY : targetY = if fwd then sy + obj.ty else sy)
    (hns : obj.speed * dt < Real.sqrt ((targetX - bx) ^ 2 + (targetY - by') ^ 2))
    (hcol : willCollide platforms
      (bx + (targetX - bx) / Real.sqrt ((targetX - bx) ^ 2 + (targetY - by') ^ 2)
        * (obj.speed * dt))
      (by' + (targetY - by') / Real.sqrt ((targetX - bx) ^ 2 + (targetY - by') ^ 2)
        * (obj.speed * dt))
      (obj.width * jsOrR obj.scale 1) (obj.height * jsOrR obj.scale 1)) :
    pingPongStep platforms dt false obj bx by'
      = ⟨0, 0, bx, by', some sx, some sy, some (!fwd)⟩ := by
  have hcond : obj.speed > 0 ∧ (obj.tx ≠ 0 ∨ obj.ty ≠ 0) := ⟨hspeed, not_and_or.mp htxy⟩
  simp only [pingPongStep, hsx, hsy, hfwd, Option.getD_some]
  rw [if_pos hcond, ← htX, ← htY, if_neg (not_le.mpr hns), if_pos ⟨trivial, hcol⟩]

set_option maxHeartbeats 2000000 in
/-- C5: for a scripted object with positive speed and a nonzero translation
target whose base lies on the segment from its recorded start towards
`start + (tx, ty)` (at parameter `s`), one tick either snaps the base
exactly onto the current target and flips the direction (when the remaining
distance is at most `speed * dt`), or — when unobstructed (every platform
is, or no hazard collision cancels the step, the C8 exception) — moves the
base exactly `speed * dt` along the segment strictly towards the current
target, keeping the direction; in both cases the sinusoidal oscillation
offset is added on top of the resulting base position without entering the
stored base coordinate. -/
theorem C5_scriptedMotion (platforms : List RectR) (player : PlayerPos) (dt : ℝ)
    (isPlatform : Bool) (obj : MovingObject)
    (bx by' sx sy s targetX targetY rem segLen : ℝ) (fwd : Bool)
    (hbx : obj.baseX = some bx) (hby : obj.baseY = some by')
    (hsx : obj.startX = some sx) (hsy : obj.startY = some sy)
    (hfwd : obj.movingForward = some fwd)
    (hspeed : 0 < obj.speed) (hdt : 0 < dt)
    (htxy : ¬ (obj.tx = 0 ∧ obj.ty = 0))
    (hsegx : bx = sx + s * obj.tx) (hsegy : by' = sy + s * obj.ty)
    (hs0 : 0 ≤ s) (hs1 : s ≤ 1)
    (htX : targetX = if fwd then sx + obj.tx else sx)
    (htY : targetY = if fwd then sy + obj.ty else sy)
    (hrem : rem = Real.sqrt ((targetX - bx) ^ 2 + (targetY - by') ^ 2))
    (hL : segLen = Real.sqrt (obj.tx ^ 2 + obj.ty ^ 2))
    (hfree : isPlatform = true ∨
      ¬ willCollide platforms (bx + (targetX - bx) / rem * (obj.speed * dt))
        (by' + (targetY - by') / rem * (obj.speed * dt))
        (obj.width * jsOrR obj.scale 1) (obj.height * jsOrR obj.scale 1)) :
    (rem ≤ obj.speed * dt →
      (applyMovement platforms player dt isPlatform obj).1.baseX = some targetX ∧
      (applyMovement platforms player dt isPlatform obj).1.baseY = some targetY ∧
      (applyMovement platforms player dt isPlatform obj).1.movingForward
        = some (!fwd)) ∧
    (obj.speed * dt < rem →
      ∃ s2 : ℝ,
        (applyMovement platforms player dt isPlatform obj).1.baseX
          = some (sx + s2 * obj.tx) ∧
        (applyMovement platforms player dt isPlatform obj).1.baseY
          = some (sy + s2 * obj.ty) ∧
        (applyMovement platforms player dt isPlatform obj).1.movingForward
          = some fwd ∧
        0 ≤ s2 ∧ s2 ≤ 1 ∧
        (fwd = true → s2 = s + obj.speed * dt / segLen ∧ s < s2 ∧ s2 < 1) ∧
        (fwd = false → s2 = s - obj.speed * dt / segLen ∧ s2 < s ∧ 0 < s2)) ∧
    (∀ bX bY : ℝ,
      (applyMovement platforms player dt isPlatform obj).1.baseX = some bX →
      (applyMovement platforms player dt isPlatform obj).1.baseY = some bY →
      (applyMovement platforms player dt isPlatform obj).1.x
        = bX + (oscStep dt obj).1 ∧
      (applyMovement platforms player dt isPlatform obj).1.y
        = bY + (oscStep dt obj).2.1) := by
  subst htX htY hrem hL
  obtain ⟨f1, f2, f3, f4, f5⟩ :=
    applyMovement_fields platforms player dt isPlatform obj bx by' hbx hby hspeed
  have hL0 : 0 < Real.sqrt (obj.tx ^ 2 + obj.ty ^ 2) := segLen_pos obj.tx obj.ty htxy
  have hstep : 0 < obj.speed * dt := mul_pos hspeed hdt
  refine ⟨?_, ?_, ?_⟩
  · intro hsnap
    have hpp := pingPongStep_snap platforms dt isPlatform obj bx by' sx sy _ _ fwd
      hsx hsy hfwd hspeed htxy rfl rfl hsnap
    rw [hpp] at f1 f2 f3
    exact ⟨f1, f2, f3⟩
  · intro hns
    cases fwd with
    | true =>
      have htXr : sx + obj.tx = if (true : Bool) then sx + obj.tx else sx := by simp
      have htYr : sy + obj.ty = if (true : Bool) then sy + obj.ty else sy := by simp
      have hns' : obj.speed * dt
          < Real.sqrt ((sx + obj.tx - bx) ^ 2 + (sy + obj.ty - by') ^ 2) := by
        simpa using hns
      have hfree' : isPlatform = true ∨ ¬ willCollide platforms
          (bx + (sx + obj.tx - bx)
            / Real.sqrt ((sx + obj.tx - bx) ^ 2 + (sy + obj.ty - by') ^ 2)
            * (obj.speed * dt))
          (by' + (sy + obj.ty - by')
            / Real.sqrt ((sx + obj.tx - bx) ^ 2 + (sy + obj.ty - by') ^ 2)
            * (obj.speed * dt))
          (obj.width * jsOrR obj.scale 1) (obj.height * jsOrR obj.scale 1) := by
        simpa using hfree
      have hpp := pingPongStep_advance platforms dt isPlatform obj bx by' sx sy
        (sx + obj.tx) (sy + obj.ty) true hsx hsy hfwd hspeed htxy htXr htYr hns' hfree'
      have hdx : sx + obj.tx - bx = (1 - s) * obj.tx := by rw [hsegx]; ring
      have hdy : sy + obj.ty - by' = (1 - s) * obj.ty := by rw [hsegy]; ring
      have hremEq : Real.sqrt ((sx + obj.tx - bx) ^ 2 + (sy + obj.ty - by') ^ 2)
          = (1 - s) * Real.sqrt (obj.tx ^ 2 + obj.ty ^ 2) := by
        rw [hdx, hdy, hypot_smul, abs_of_nonneg (by linarith : (0:ℝ) ≤ 1 - s)]
      rw [hremEq] at hns'
      have h1s : 0 < 1 - s := by nlinarith
      have hfrac : 0 < obj.speed * dt / Real.sqrt (obj.tx ^ 2 + obj.ty ^ 2) := by
        positivity
      have hflt : obj.speed * dt / Real.sqrt (obj.tx ^ 2 + obj.ty ^ 2) < 1 - s := by
        rw [div_lt_iff₀ hL0]
        nlinarith
      have hbXval : (pingPongStep platforms dt isPlatform obj bx by').baseX
          = sx + (s + obj.speed * dt / Real.sqrt (obj.tx ^ 2 + obj.ty ^ 2)) * obj.tx := by
        rw [hpp]
        show bx + (sx + obj.tx - bx)
            / Real.sqrt ((sx + obj.tx - bx) ^ 2 + (sy + obj.ty - by') ^ 2)
            * (obj.speed * dt) = _
        rw [hremEq, hdx, hsegx]
        field_simp [ne_of_gt hL0, ne_of_gt h1s]
        ring
      have hbYval : (pingPongStep platforms dt isPlatform obj bx by').baseY
          = sy + (s + obj.speed * dt / Real.sqrt (obj.tx ^ 2 + obj.ty ^ 2)) * obj.ty := by
        rw [hpp]
        show by' + (sy + obj.ty - by')
            / Real.sqrt ((sx + obj.tx - bx) ^ 2 + (sy + obj.ty - by') ^ 2)
            * (obj.speed * dt) = _
        rw [hremEq, hdy, hsegy]
        field_simp [ne_of_gt hL0, ne_of_gt h1s]
        ring
      have hfwdval : (pingPongStep platforms dt isPlatform obj bx by').movingForward
          = some true := by
        rw [hpp]
      refine ⟨s + obj.speed * dt / Real.sqrt (obj.tx ^ 2 + obj.ty ^ 2),
        f1.trans (congrArg some hbXval), f2.trans (congrArg some hbYval),
        f3.trans hfwdval, by linarith, by linarith,
        fun _ => ⟨rfl, by linarith, by linarith⟩,
        fun hc => by simp at hc⟩
    | false =>
      have htXr : sx = if (false : Bool) then sx + obj.tx else sx := by simp
      have htYr : sy = if (false : Bool) then sy + obj.ty else sy := by simp
      have hns' : obj.speed * dt
          < Real.sqrt ((sx - bx) ^ 2 + (sy - by') ^ 2) := by
        simpa using hns
      have hfree' : isPlatform = true ∨ ¬ willCollide platforms
          (bx + (sx - bx) / Real.sqrt ((sx - bx) ^ 2 + (sy - by') ^ 2)
            * (obj.speed * dt))
          (by' + (sy - by') / Real.sqrt ((sx - bx) ^ 2 + (sy - by') ^ 2)
            * (obj.speed * dt))
          (obj.width * jsOrR obj.scale 1) (obj.height * jsOrR obj.scale 1) := by
        simpa using hfree
      have hpp := pingPongStep_advance platforms dt isPlatform obj bx by' sx sy
        sx sy false hsx hsy hfwd hspeed htxy htXr htYr hns' hfree'
      have hdx : sx - bx = (-s) * obj.tx := by rw [hsegx]; ring
      have hdy : sy - by' = (-s) * obj.ty := by rw [hsegy]; ring
      have hremEq : Real.sqrt ((sx - bx) ^ 2 + (sy - by') ^ 2)
          = s * Real.sqrt (obj.tx ^ 2 + obj.ty ^ 2) := by
        rw [hdx, hdy, hypot_smul, abs_neg, abs_of_nonneg hs0]
      rw [hremEq] at hns'
      have hspos : 0 < s := by nlinarith
      have hfrac : 0 < obj.speed * dt / Real.sqrt (obj.tx ^ 2 + obj.ty ^ 2) := by
        positivity
      have hflt : obj.speed * dt / Real.sqrt (obj.tx ^ 2 + obj.ty ^ 2) < s := by
        rw [div_lt_iff₀ hL0]
        nlinarith
      have hbXval : (pingPongStep platforms dt isPlatform obj bx by').baseX
          = sx + (s - obj.speed * dt / Real.sqrt (obj.tx ^ 2 + obj.ty ^ 2)) * obj.tx := by
        rw [hpp]
        show bx + (sx - bx) / Real.sqrt ((sx - bx) ^ 2 + (sy - by') ^ 2)
            * (obj.speed * dt) = _
        rw [hremEq, hdx, hsegx]
        field_simp [ne_of_gt hL0, ne_of_gt hspos]
        ring
      have hbYval : (pingPongStep platforms dt isPlatform obj bx by').baseY
          = sy + (s - obj.speed * dt / Real.sqrt (obj.tx ^ 2 + obj.ty ^ 2)) * obj.ty := by
        rw [hpp]
        show by' + (sy - by') / Real.sqrt ((sx - bx) ^ 2 + (sy - by') ^ 2)
            * (obj.speed * dt) = _
        rw [hremEq, hdy, hsegy]
        field_simp [ne_of_gt hL0, ne_of_gt hspos]
        ring
      have hfwdval : (pingPongStep platforms dt isPlatform obj bx by').movingForward
          = some false := by
        rw [hpp]
      refine ⟨s - obj.speed * dt / Real.sqrt (obj.tx ^ 2 + obj.ty ^ 2),
        f1.trans (congrArg some hbXval), f2.trans (congrArg some hbYval),
        f3.trans hfwdval, by linarith, by linarith,
        fun hc => by simp at hc,
        fun _ => ⟨rfl, by linarith, by linarith⟩⟩
  · intro bX bY hX hY
    rw [f1] at hX
    rw [f2] at hY
    rw [Option.some.injEq] at hX hY
    rw [← hX, ← hY]
    exact ⟨f4, f5⟩

/-- A stationary body far from everything, for instantiating the scheduler
theorems. -/
noncomputable def stillPlayer : PlayerPos := ⟨0, 1000, 30, 30, 0⟩

/-- A concrete ping-pong platform: `speed = 100`, `tx = 200`, starting at
`x = 300`, no oscillation. -/
noncomputable def pingObj : MovingObject :=
  { x := 300, y := 0, width := 50, height := 10, scale := none, speed := 100,
    tx := 200, ty := 0, oscX := 0, oscY := 0, oscSpeed := 0,
    baseX := some 300, baseY := some 0, startX := some 300, startY := some 0,
    movingForward := some true, oscTime := none }

theorem C5_scriptedMotion_witness :
    (0 : ℝ) < pingObj.speed ∧ (0 : ℝ) < (1/10 : ℝ) ∧
    ¬ (pingObj.tx = 0 ∧ pingObj.ty = 0) ∧
    (300 : ℝ) = 300 + 0 * pingObj.tx ∧
    (500 : ℝ) = (if true then (300 : ℝ) + pingObj.tx else 300) ∧
    ((Real.sqrt (((500 : ℝ) - 300) ^ 2 + ((0 : ℝ) - 0) ^ 2) ≤ pingObj.speed * (1/10) →
      (applyMovement [] stillPlayer (1/10) true pingObj).1.baseX = some 500 ∧
      (applyMovement [] stillPlayer (1/10) true pingObj).1.baseY = some 0 ∧
      (applyMovement [] stillPlayer (1/10) true pingObj).1.movingForward
        = some (!true)) ∧
    (pingObj.speed * (1/10) < Real.sqrt (((500 : ℝ) - 300) ^ 2 + ((0 : ℝ) - 0) ^ 2) →
      ∃ s2 : ℝ,
        (applyMovement [] stillPlayer (1/10) true pingObj).1.baseX
          = some (300 + s2 * pingObj.tx) ∧
        (applyMovement [] stillPlayer (1/10) true pingObj).1.baseY
          = some (0 + s2 * pingObj.ty) ∧
        (applyMovement [] stillPlayer (1/10) true pingObj).1.movingForward
          = some true ∧
        0 ≤ s2 ∧ s2 ≤ 1 ∧
        (true = true →
          s2 = 0 + pingObj.speed * (1/10) / Real.sqrt (pingObj.tx ^ 2 + pingObj.ty ^ 2) ∧
          (0 : ℝ) < s2 ∧ s2 < 1) ∧
        (true = false →
          s2 = 0 - pingObj.speed * (1/10) / Real.sqrt (pingObj.tx ^ 2 + pingObj.ty ^ 2) ∧
          s2 < 0 ∧ (0 : ℝ) < s2)) ∧
    (∀ bX bY : ℝ,
      (applyMovement [] stillPlayer (1/10) true pingObj).1.baseX = some bX →
      (applyMovement [] stillPlayer (1/10) true pingObj).1.baseY = some bY →
      (applyMovement [] stillPlayer (1/10) true pingObj).1.x
        = bX + (oscStep (1/10) pingObj).1 ∧
      (applyMovement [] stillPlayer (1/10) true pingObj).1.y
        = bY + (oscStep (1/10) pingObj).2.1)) :=
  ⟨by norm_num [pingObj], by norm_num, by norm_num [pingObj], by norm_num,
    by norm_num [pingObj],
    C5_scriptedMotion [] stillPlayer (1/10) true pingObj 300 0 300 0 0 500 0
      (Real.sqrt (((500 : ℝ) - 300) ^ 2 + ((0 : ℝ) - 0) ^ 2))
      (Real.sqrt (pingObj.tx ^ 2 + pingObj.ty ^ 2)) true
      rfl rfl rfl rfl rfl (by norm_num [pingObj]) (by norm_num)
      (by norm_num [pingObj]) (by norm_num) (by norm_num)
      (by norm_num) (by norm_num) (by norm_num [pingObj]) (by norm_num [pingObj])
      rfl rfl (Or.inl rfl)⟩

/-- The platform blocking the witness hazards' path. -/
noncomputable def blockRect : RectR := ⟨9, -1, 2, 2⟩

/-- A hazard one snap-step short of its target, which sits inside
`blockRect`. -/
noncomputable def snapHazard : MovingObject :=
  { x := 0, y := 0, width := 4, height := 4, scale := none, speed := 100,
    tx := 10, ty := 0, oscX := 0, oscY := 0, oscSpeed := 0,
    baseX := some 0, baseY := some 0, startX := some 0, startY := some 0,
    movingForward := some true, oscTime := none }

/-- C8 counterexample: on a snap tick (remaining distance within
`speed * dt`) the hazard's prospective box at the displaced position
overlaps a platform, yet the displacement is committed (the base moves to
the target) — no collision test is run on that path, contradicting the
claim that every tick's displacement is tested and cancelled on overlap. -/
theorem C8_counterexample :
    willCollide [blockRect] 10 0 (snapHazard.width * jsOrR snapHazard.scale 1)
      (snapHazard.height * jsOrR snapHazard.scale 1) ∧
    snapHazard.baseX = some 0 ∧
    (moveTrap [blockRect] stillPlayer 1 false snapHazard).1.baseX = some 10 ∧
    (moveTrap [blockRect] stillPlayer 1 false snapHazard).1.baseY = some 0 := by
  have hsq : Real.sqrt (((10 : ℝ) - 0) ^ 2 + ((0 : ℝ) - 0) ^ 2) = 10 := by
    rw [show ((10 : ℝ) - 0) ^ 2 + ((0 : ℝ) - 0) ^ 2 = 10 ^ 2 by norm_num,
      Real.sqrt_sq (by norm_num : (0 : ℝ) ≤ 10)]
  have hpp := pingPongStep_snap [blockRect] 1 false snapHazard 0 0 0 0 10 0 true
    rfl rfl rfl (by norm_num [snapHazard]) (by norm_num [snapHazard])
    (by norm_num [snapHazard]) (by norm_num [snapHazard])
    (by rw [hsq]; norm_num [snapHazard])
  obtain ⟨f1, f2, _, _, _⟩ := applyMovement_fields [blockRect] stillPlayer 1 false
    snapHazard 0 0 rfl rfl (by norm_num [snapHazard])
  rw [hpp] at f1 f2
  refine ⟨⟨blockRect, by simp, ?_, ?_, ?_, ?_⟩, rfl, ?_, ?_⟩
  · norm_num [blockRect, snapHazard, jsOrR]
  · norm_num [blockRect, snapHazard, jsOrR]
  · norm_num [blockRect, snapHazard, jsOrR]
  · norm_num [blockRect, snapHazard, jsOrR]
  · show (applyMovement [blockRect] stillPlayer 1 false snapHazard).1.baseX = some 10
    rw [f1]
  · show (applyMovement [blockRect] stillPlayer 1 false snapHazard).1.baseY = some 0
    rw [f2]

/-- C8 (amended): on a non-snap tick (remaining distance exceeding
`speed * dt`) a non-dormant hazard's prospective scaled box at the
displaced position is tested against the platforms, and an overlap cancels
the tick's displacement — the base coordinates are unchanged — and flips
the travel direction in that same tick; the oscillation offset is still
applied on top of the unchanged base.  (On snap ticks no test is run; see
the counterexample.) -/
theorem C8_hazardCollision (platforms : List RectR) (player : PlayerPos) (dt : ℝ)
    (obj : MovingObject) (bx by' sx sy targetX targetY : ℝ) (fwd : Bool)
    (hbx : obj.baseX = some bx) (hby : obj.baseY = some by')
    (hsx : obj.startX = some sx) (hsy : obj.startY = some sy)
    (hfwd : obj.movingForward = some fwd)
    (hspeed : 0 < obj.speed)
    (htxy : ¬ (obj.tx = 0 ∧ obj.ty = 0))
    (htX : targetX = if fwd then sx + obj.tx else sx)
    (htY : targetY = if fwd then sy + obj.ty else sy)
    (hns : obj.speed * dt < Real.sqrt ((targetX - bx) ^ 2 + (targetY - by') ^ 2))
    (hcol : willCollide platforms
      (bx + (targetX - bx) / Real.sqrt ((targetX - bx) ^ 2 + (targetY - by') ^ 2)
        * (obj.speed * dt))
      (by' + (targetY - by') / Real.sqrt ((targetX - bx) ^ 2 + (targetY - by') ^ 2)
        * (obj.speed * dt))
      (obj.width * jsOrR obj.scale 1) (obj.height * jsOrR obj.scale 1)) :
    (moveTrap platforms player dt false obj).1.baseX = some bx ∧
    (moveTrap platforms player dt false obj).1.baseY = some by' ∧
    (moveTrap platforms player dt false obj).1.movingForward = some (!fwd) ∧
    (moveTrap platforms player dt false obj).1.x = bx + (oscStep dt obj).1 ∧
    (moveTrap platforms player dt false obj).1.y = by' + (oscStep dt obj).2.1 := by
  obtain ⟨f1, f2, f3, f4, f5⟩ :=
    applyMovement_fields platforms player dt false obj bx by' hbx hby hspeed
  have hpp := pingPongStep_blocked platforms dt obj bx by' sx sy targetX targetY fwd
    hsx hsy hfwd hspeed htxy htX htY hns hcol
  rw [hpp] at f1 f2 f3 f4 f5
  exact ⟨f1, f2, f3, f4, f5⟩

/-- A hazard far from its target, whose next step lands inside
`blockRect`. -/
noncomputable def slowHazard : MovingObject :=
  { x := 0, y := 0, width := 4, height := 4, scale := none, speed := 10,
    tx := 100, ty := 0, oscX := 0, oscY := 0, oscSpeed := 0,
    baseX := some 0, baseY := some 0, startX := some 0, startY := some 0,
    movingForward := some true, oscTime := none }

theorem C8_hazardCollision_witness :
    (0 : ℝ) < slowHazard.speed ∧ ¬ (slowHazard.tx = 0 ∧ slowHazard.ty = 0) ∧
    slowHazard.speed * 1 < Real.sqrt (((100 : ℝ) - 0) ^ 2 + ((0 : ℝ) - 0) ^ 2) ∧
    willCollide [blockRect]
      ((0 : ℝ) + (100 - 0) / Real.sqrt (((100 : ℝ) - 0) ^ 2 + ((0 : ℝ) - 0) ^ 2)
        * (slowHazard.speed * 1))
      ((0 : ℝ) + (0 - 0) / Real.sqrt (((100 : ℝ) - 0) ^ 2 + ((0 : ℝ) - 0) ^ 2)
        * (slowHazard.speed * 1))
      (slowHazard.width * jsOrR slowHazard.scale 1)
      (slowHazard.height * jsOrR slowHazard.scale 1) ∧
    ((moveTrap [blockRect] stillPlayer 1 false slowHazard).1.baseX = some 0 ∧
      (moveTrap [blockRect] stillPlayer 1 false slowHazard).1.baseY = some 0 ∧
      (moveTrap [blockRect] stillPlayer 1 false slowHazard).1.movingForward
        = some (!true) ∧
      (moveTrap [blockRect] stillPlayer 1 false slowHazard).1.x
        = 0 + (oscStep 1 slowHazard).1 ∧
      (moveTrap [blockRect] stillPlayer 1 false slowHazard).1.y
        = 0 + (oscStep 1 slowHazard).2.1) := by
  have hsq : Real.sqrt (((100 : ℝ) - 0) ^ 2 + ((0 : ℝ) - 0) ^ 2) = 100 := by
    rw [show ((100 : ℝ) - 0) ^ 2 + ((0 : ℝ) - 0) ^ 2 = 100 ^ 2 by norm_num,
      Real.sqrt_sq (by norm_num : (0 : ℝ) ≤ 100)]
  have hns : slowHazard.speed * 1 < Real.sqrt (((100 : ℝ) - 0) ^ 2 + ((0 : ℝ) - 0) ^ 2) := by
    rw [hsq]
    norm_num [slowHazard]
  have hcol : willCollide [blockRect]
      ((0 : ℝ) + (100 - 0) / Real.sqrt (((100 : ℝ) - 0) ^ 2 + ((0 : ℝ) - 0) ^ 2)
        * (slowHazard.speed * 1))
      ((0 : ℝ) + (0 - 0) / Real.sqrt (((100 : ℝ) - 0) ^ 2 + ((0 : ℝ) - 0) ^ 2)
        * (slowHazard.speed * 1))
      (slowHazard.width * jsOrR slowHazard.scale 1)
      (slowHazard.height * jsOrR slowHazard.scale 1) := by
    refine ⟨blockRect, by simp, ?_, ?_, ?_, ?_⟩ <;>
      rw [hsq] <;> norm_num [blockRect, slowHazard, jsOrR]
  exact ⟨by norm_num [slowHazard], by norm_num [slowHazard], hns, hcol,
    C8_hazardCollision [blockRect] stillPlayer 1 slowHazard 0 0 0 0 100 0 true
      rfl rfl rfl rfl rfl (by norm_num [slowHazard]) (by norm_num [slowHazard])
      (by norm_num [slowHazard]) (by norm_num [slowHazard]) hns hcol⟩

end MotionScheduler
